import Mathlib

/-!
# Route aggregation of the build-deploy tool

A shallow embedding of `generateRoutes` (`cmd/identify_ingress.go`) and of the
configuration types it carries (`internal/lagoon/lagoon.go`), followed by the
properties proved about it.

Modelling conventions.

* A Go slice is a `List`, a Go map an association list, a Go pointer to a
  value that may be `nil` an `Option`.
* A Go `error` is the `Option` of its message: `none` is the `nil` error.
* `generateRoutes` receives `autogenRoutes`, `mainRoutes` and
  `activeStanbyRoutes` by pointer and hands them (and pointers to its local
  copies of the YAML and of the build values) to its collaborators, which may
  write through them.  The embedding passes these values in and gets the
  updated values back; the three route pointers are taken to be distinct.
* The collaborators `generateAutogenRoutes`, `generateIngress` and
  `generateActiveStandby` are declared in other files of the `cmd` package; they
  are parameters of the embedding (`Collaborators`).
* `remainders = append(autogen, x)` yields a slice holding the elements of
  `autogen` followed by `x`.  It may share the backing array of `autogen`, but
  later appends only write past `len(autogen)`, and `autogen` itself is not
  appended to after the first block, so the value semantics of lists is exact.
-/

namespace lagoon

/-- The `Environment` struct of `lagoon.go`; `Route` is the type of the
route declarations of the YAML file, declared elsewhere in the package. -/
structure Environment (Route : Type) where
  AutogenerateRoutes : Option Bool
  Types : List (String × String)
  Routes : List (List (String × List Route))
deriving DecidableEq, Repr

/-- The `ProductionRoutes` struct of `lagoon.go`: an active/standby
configuration. -/
structure ProductionRoutes (Route : Type) where
  Active : Option (Environment Route)
  Standby : Option (Environment Route)
deriving DecidableEq, Repr

/-- The `Autogenerate` struct of `lagoon.go`. -/
structure Autogenerate where
  Enabled : Option Bool
  AllowPullRequests : Option Bool
  Insecure : String
  Prefixes : List String
deriving DecidableEq, Repr

/-- The `Routes` struct of `lagoon.go`. -/
structure Routes where
  Autogenerate : Autogenerate
deriving DecidableEq, Repr

/-- The `YAML` struct of `lagoon.go`: the `.lagoon.yml` file.  `Environments`
is the map `Environments` of the source. -/
structure YAML (Route : Type) where
  DockerComposeYAML : String
  Environments : List (String × Environment Route)
  ProductionRoutes : Option (ProductionRoutes Route)
  Routes : Routes
deriving DecidableEq, Repr

/-- The `Fastly` block of a `RouteV2`, with the fields the code reads. -/
structure Fastly where
  Watch : Bool
  ServiceID : String
  APISecretName : String
deriving DecidableEq, Repr

/-- The `RouteV2` struct, with the fields the code under consideration reads
(`route.Domain`, `route.AlternativeNames`, ...). -/
structure RouteV2 where
  Domain : String
  LagoonService : String
  ComposeService : String
  TLSAcme : Option Bool
  Insecure : Option String
  Migrate : Option Bool
  Fastly : Fastly
  MonitoringPath : String
  IngressClass : String
  ServicePortNumber : Option Int
  ServicePortName : Option String
  Annotations : List (String × String)
  Labels : List (String × String)
  AlternativeNames : List String
  Autogenerated : Bool
deriving DecidableEq, Repr

/-- The `RoutesV2` struct: a list of routes. -/
structure RoutesV2 where
  Routes : List RouteV2
deriving DecidableEq, Repr

end lagoon

namespace cmd

open lagoon

/-- What `generateAutogenRoutes(lagoonEnvVars, &lYAML, &lagoonValues,
autogenRoutes)` leaves behind: its error and the values behind its three
pointer arguments. -/
structure AutogenOutcome (BuildValues Route : Type) where
  err : Option String
  lYAML : YAML Route
  lagoonValues : BuildValues
  autogenRoutes : RoutesV2

/-- What `generateIngress(lagoonValues, lYAML, lagoonEnvVars, mainRoutes,
debug)` leaves behind: its error and the value behind `mainRoutes`. -/
structure IngressOutcome where
  err : Option String
  mainRoutes : RoutesV2

/-- The three functions of the `cmd` package that `generateRoutes` calls. -/
structure Collaborators (EnvironmentVariable BuildValues Route : Type) where
  generateAutogenRoutes :
    List EnvironmentVariable → YAML Route → BuildValues → RoutesV2 →
      AutogenOutcome BuildValues Route
  generateIngress :
    BuildValues → YAML Route → List EnvironmentVariable → RoutesV2 → Bool →
      IngressOutcome
  generateActiveStandby :
    Bool → Bool → List EnvironmentVariable → YAML Route → RoutesV2

/-- The local `prefix := "https://"` of `generateRoutes`. -/
def pfx : String := "https://"

/-- The value of `fmt.Sprintf("%s%s", prefix, name)`. -/
def sprintf (name : String) : String := pfx ++ name

/-- The locals `primary`, `remainders` and `autogen` of `generateRoutes`. -/
structure Locals where
  primary : String
  remainders : List String
  autogen : List String
deriving DecidableEq, Repr

/-- The loop `for a := 0; a < len(names); a++ { autogen = append(autogen,
sprintf names[a]) }` (lines 68-70 and 72-74). -/
def appendAlternativeNames (autogen : List String) (names : List String) : List String :=
  names.foldl (fun ag a => ag ++ [sprintf a]) autogen

/-- The loop `for a := 0; a < len(names); a++ { remainders = append(autogen,
sprintf names[a]) }` (lines 92-94, 96-98, 116-118 and 120-122): each round
assigns to `remainders` the list `autogen` extended by one name. -/
def assignAlternativeNames (autogen : List String) (remainders : List String)
    (names : List String) : List String :=
  names.foldl (fun _ a => autogen ++ [sprintf a]) remainders

/-- Lines 62-76: the block run on the autogenerated routes. -/
def autogenBlock (routes : List RouteV2) (s : Locals) : Locals :=
  match routes with
  | [] => s
  | r0 :: rest =>
    let s0 : Locals := { s with autogen := s.autogen ++ [sprintf r0.Domain] }
    let s1 : Locals := rest.foldl (fun st ri =>
      { st with
        remainders := st.remainders ++ [sprintf ri.Domain]
        autogen := appendAlternativeNames (st.autogen ++ [sprintf ri.Domain])
          ri.AlternativeNames }) s0
    { primary := sprintf r0.Domain
      remainders := s1.remainders
      autogen := appendAlternativeNames s1.autogen r0.AlternativeNames }

/-- Lines 85-100, and again lines 109-124 (the same statements, over
`mainRoutes` and over `activeStanbyRoutes`): the first route of the list
replaces the primary. -/
def replaceBlock (routes : List RouteV2) (s : Locals) : Locals :=
  match routes with
  | [] => s
  | r0 :: rest =>
    let rem0 := if s.primary ≠ "" then s.remainders ++ [s.primary] else s.remainders
    let rem1 := rest.foldl (fun rem ri =>
      assignAlternativeNames s.autogen (rem ++ [sprintf ri.Domain]) ri.AlternativeNames) rem0
    { primary := sprintf r0.Domain
      remainders := assignAlternativeNames s.autogen rem1 r0.AlternativeNames
      autogen := s.autogen }

/-- The four results of `generateRoutes`, and the values it leaves behind
its three route pointers. -/
structure Outcome where
  primary : String
  remainders : List String
  autogen : List String
  err : Option String
  autogenRoutes : RoutesV2
  mainRoutes : RoutesV2
  activeStanbyRoutes : RoutesV2
deriving DecidableEq, Repr

/-- The function `generateRoutes` of `cmd/identify_ingress.go`. -/
def generateRoutes {EnvironmentVariable BuildValues Route : Type}
    (c : Collaborators EnvironmentVariable BuildValues Route)
    (lagoonEnvVars : List EnvironmentVariable) (lagoonValues : BuildValues)
    (lYAML : YAML Route) (autogenRoutes mainRoutes activeStanbyRoutes : RoutesV2)
    (activeEnv standbyEnv debug : Bool) : Outcome :=
  let s : Locals := { primary := "", remainders := [], autogen := [] }
  let a := c.generateAutogenRoutes lagoonEnvVars lYAML lagoonValues autogenRoutes
  match a.err with
  | some e =>
    { primary := "", remainders := [], autogen := []
      err := some ("couldn't unmarshal routes from Lagoon API, is it actually JSON that has been base64 encoded?: " ++ e)
      autogenRoutes := a.autogenRoutes
      mainRoutes := mainRoutes
      activeStanbyRoutes := activeStanbyRoutes }
  | none =>
    let s := autogenBlock a.autogenRoutes.Routes s
    let g := c.generateIngress a.lagoonValues a.lYAML lagoonEnvVars mainRoutes debug
    match g.err with
    | some e =>
      { primary := "", remainders := [], autogen := []
        err := some ("couldn't generate and merge routes: " ++ e)
        autogenRoutes := a.autogenRoutes
        mainRoutes := g.mainRoutes
        activeStanbyRoutes := activeStanbyRoutes }
    | none =>
      let s := replaceBlock g.mainRoutes.Routes s
      if activeEnv || standbyEnv then
        let asr := c.generateActiveStandby activeEnv standbyEnv lagoonEnvVars a.lYAML
        let s := replaceBlock asr.Routes s
        { primary := s.primary, remainders := s.remainders, autogen := s.autogen
          err := none
          autogenRoutes := a.autogenRoutes
          mainRoutes := g.mainRoutes
          activeStanbyRoutes := asr }
      else
        { primary := s.primary, remainders := s.remainders, autogen := s.autogen
          err := none
          autogenRoutes := a.autogenRoutes
          mainRoutes := g.mainRoutes
          activeStanbyRoutes := activeStanbyRoutes }

end cmd

/-! ## The collaborator calls and the vocabulary of the properties -/

namespace cmd

open lagoon

section calls

variable {EnvironmentVariable BuildValues Route : Type}
  (c : Collaborators EnvironmentVariable BuildValues Route)
  (lagoonEnvVars : List EnvironmentVariable) (lagoonValues : BuildValues)
  (lYAML : YAML Route) (autogenRoutes mainRoutes : RoutesV2)
  (activeEnv standbyEnv debug : Bool)

/-- The call of line 57, as `generateRoutes` makes it. -/
def autogenCall : AutogenOutcome BuildValues Route :=
  c.generateAutogenRoutes lagoonEnvVars lYAML lagoonValues autogenRoutes

/-- The call of line 79, as `generateRoutes` makes it: on the build values
and the YAML that the call of line 57 left behind. -/
def ingressCall : IngressOutcome :=
  c.generateIngress (autogenCall c lagoonEnvVars lagoonValues lYAML autogenRoutes).lagoonValues
    (autogenCall c lagoonEnvVars lagoonValues lYAML autogenRoutes).lYAML lagoonEnvVars
    mainRoutes debug

/-- The call of line 107, as `generateRoutes` makes it when the environment
is active or standby. -/
def activeStandbyCall : RoutesV2 :=
  c.generateActiveStandby activeEnv standbyEnv lagoonEnvVars
    (autogenCall c lagoonEnvVars lagoonValues lYAML autogenRoutes).lYAML

end calls

/-- The host names of a list of routes: each domain followed by its
alternative names. -/
def hostNames (routes : List RouteV2) : List String :=
  routes.flatMap (fun r => r.Domain :: r.AlternativeNames)

/-- The URL of the domain of the first route of a list, the empty string
for the empty list. -/
def firstDomainURL (routes : List RouteV2) : String :=
  match routes with
  | [] => ""
  | r :: _ => sprintf r.Domain

/-- The primary as the specification words it: active-standby before
explicit before autogenerated, the first route of the winning source. -/
def primaryByPrecedence (activeOrStandby : Bool)
    (activeStandby explicit autogenerated : List RouteV2) : String :=
  if activeOrStandby = true ∧ activeStandby ≠ [] then firstDomainURL activeStandby
  else if explicit ≠ [] then firstDomainURL explicit
  else if autogenerated ≠ [] then firstDomainURL autogenerated
  else ""

/-- The locals hold URLs of host names of `seen` only, and the primary is
not among the remainders. -/
def Tracked (seen : List String) (s : Locals) : Prop :=
  (∀ x ∈ s.remainders, ∃ a ∈ seen, x = sprintf a) ∧
  (∀ x ∈ s.autogen, ∃ a ∈ seen, x = sprintf a) ∧
  (s.primary = "" ∨ ∃ a ∈ seen, s.primary = sprintf a) ∧
  s.primary ∉ s.remainders

/-- The YAML `y` with its `production_routes` block replaced. -/
def withProductionRoutes {Route : Type} (y : YAML Route)
    (p : Option (ProductionRoutes Route)) : YAML Route :=
  { y with ProductionRoutes := p }

end cmd

/-! ## Fixtures: concrete routes and collaborators -/

namespace cmd

open lagoon

/-- A route with the given domain and alternative names, every other field
at its Go zero value. -/
def routeOf (domain : String) (alternativeNames : List String) : RouteV2 :=
  { Domain := domain, LagoonService := "", ComposeService := ""
    TLSAcme := none, Insecure := none, Migrate := none
    Fastly := { Watch := false, ServiceID := "", APISecretName := "" }
    MonitoringPath := "", IngressClass := ""
    ServicePortNumber := none, ServicePortName := none
    Annotations := [], Labels := [], AlternativeNames := alternativeNames
    Autogenerated := false }

/-- Collaborators that succeed and produce the given three route lists,
leaving the YAML and the build values as they are. -/
def collaboratorsOf (autogenerated explicit activeStandby : List RouteV2) :
    Collaborators Unit Unit Unit :=
  { generateAutogenRoutes := fun _ y v _ =>
      { err := none, lYAML := y, lagoonValues := v, autogenRoutes := ⟨autogenerated⟩ }
    generateIngress := fun _ _ _ _ _ => { err := none, mainRoutes := ⟨explicit⟩ }
    generateActiveStandby := fun _ _ _ _ => ⟨activeStandby⟩ }

/-- A YAML file with nothing in it. -/
def emptyYAML : YAML Unit :=
  { DockerComposeYAML := "", Environments := [], ProductionRoutes := none
    Routes := ⟨{ Enabled := none, AllowPullRequests := none, Insecure := "", Prefixes := [] }⟩ }

/-- The run of `generateRoutes` on the given three route lists and flags:
the collaborators produce the lists, the route pointers start out empty. -/
def runOn (autogenerated explicit activeStandby : List RouteV2)
    (activeEnv standbyEnv : Bool) : Outcome :=
  generateRoutes (collaboratorsOf autogenerated explicit activeStandby) [] () emptyYAML
    ⟨[]⟩ ⟨[]⟩ ⟨[]⟩ activeEnv standbyEnv false

end cmd

/-!
# Rendering of one route as an ingress manifest

A shallow embedding of `GenerateIngressTemplate`
(`internal/templating/ingress/templates_ingress.go`).

Modelling conventions, in addition to those above.

* A Go string is a `String`; `len(s)` is its number of bytes
  (`String.utf8ByteSize`) and `s[:n]` its prefix of `n` bytes, a run-time panic
  when `n` exceeds `len(s)`.  The prefix is exact when the cut falls between
  two characters, which is always so for ASCII strings.
* A Go map is an association list with pairwise distinct keys; `m[k] = v`
  replaces the value of `k` or adds the pair.
* The functions of other packages that `GenerateIngressTemplate` calls
  (`strings.ToLower`, the validation functions of `k8s.io/apimachinery`,
  `helpers.GetMD5HashWithNewLine`, `yaml.Marshal`) are parameters of the
  embedding (`Library`).
* The function either returns its pair of results or panics: its value is an
  `Option`, `none` being the panic.
-/

namespace strconv

/-- The function `strconv.FormatBool`. -/
def FormatBool (b : Bool) : String := if b then "true" else "false"

end strconv

namespace gomap

/-- The assignment `m[key] = value`. -/
def set (m : List (String × String)) (key value : String) : List (String × String) :=
  match m with
  | [] => [(key, value)]
  | (k, v) :: rest => if k = key then (key, value) :: rest else (k, v) :: set rest key value

/-- The lookup `v, ok := m[key]`. -/
def get? (m : List (String × String)) (key : String) : Option String :=
  match m with
  | [] => none
  | (k, v) :: rest => if k = key then some v else get? rest key

/-- The loop `for key, value := range src { dst[key] = value }`. -/
def setAll (dst src : List (String × String)) : List (String × String) :=
  src.foldl (fun m kv => set m kv.1 kv.2) dst

/-- The keys of a map. -/
def keys (m : List (String × String)) : List String := m.map Prod.fst

end gomap

namespace generator

/-- The `ServiceValues` struct of the `generator` package, with the fields
that the tests and `GenerateIngressTemplate` name (`Type_` is the field
`Type`). -/
structure ServiceValues where
  Name : String
  OverrideName : String
  Type_ : String
  AutogeneratedRoutesEnabled : Bool
  AutogeneratedRoutesTLSAcme : Bool
  DBaaSEnvironment : String
  BackupsEnabled : Bool
  ShortAutogeneratedRouteDomain : String
deriving DecidableEq, Repr

/-- The monitoring block of `BuildValues`. -/
structure MonitoringConfig where
  Enabled : Bool
  AlertContact : String
  StatusPageID : String
deriving DecidableEq, Repr

/-- The `BuildValues` struct of the `generator` package, with the fields
that `GenerateIngressTemplate` reads. -/
structure BuildValues where
  Project : String
  Environment : String
  EnvironmentType : String
  BuildType : String
  Branch : String
  PRNumber : String
  PRHeadBranch : String
  PRBaseBranch : String
  LagoonVersion : String
  Monitoring : MonitoringConfig
  Services : List ServiceValues
deriving DecidableEq, Repr

end generator

namespace networkv1

/-- The `metav1.TypeMeta` of an object. -/
structure TypeMeta where
  Kind : String
  APIVersion : String
deriving DecidableEq, Repr

/-- The `metav1.ObjectMeta` of an object, with the fields that are set. -/
structure ObjectMeta where
  Name : String
  Labels : List (String × String)
  Annotations : List (String × String)
deriving DecidableEq, Repr

/-- The struct `networkv1.ServiceBackendPort`. -/
structure ServiceBackendPort where
  Name : String
  Number : Int
deriving DecidableEq, Repr

/-- The struct `networkv1.IngressServiceBackend`. -/
structure IngressServiceBackend where
  Name : String
  Port : ServiceBackendPort
deriving DecidableEq, Repr

/-- The struct `networkv1.IngressBackend`; `Service` is a pointer. -/
structure IngressBackend where
  Service : Option IngressServiceBackend
deriving DecidableEq, Repr

/-- The struct `networkv1.HTTPIngressPath`; `PathType` is a pointer. -/
structure HTTPIngressPath where
  Path : String
  PathType : Option String
  Backend : IngressBackend
deriving DecidableEq, Repr

/-- The struct `networkv1.HTTPIngressRuleValue`. -/
structure HTTPIngressRuleValue where
  Paths : List HTTPIngressPath
deriving DecidableEq, Repr

/-- The struct `networkv1.IngressRuleValue`; `HTTP` is a pointer. -/
structure IngressRuleValue where
  HTTP : Option HTTPIngressRuleValue
deriving DecidableEq, Repr

/-- The struct `networkv1.IngressRule`. -/
structure IngressRule where
  Host : String
  IngressRuleValue : IngressRuleValue
deriving DecidableEq, Repr

/-- The struct `networkv1.IngressTLS`. -/
structure IngressTLS where
  Hosts : List String
  SecretName : String
deriving DecidableEq, Repr

/-- The struct `networkv1.IngressSpec`, with the fields that are set. -/
structure IngressSpec where
  IngressClassName : Option String
  TLS : List IngressTLS
  Rules : List IngressRule
deriving DecidableEq, Repr

/-- The struct `networkv1.Ingress`. -/
structure Ingress where
  TypeMeta : TypeMeta
  ObjectMeta : ObjectMeta
  Spec : IngressSpec
deriving DecidableEq, Repr

/-- The constant `networkv1.PathTypePrefix`. -/
def PathTypePrefix : String := "Prefix"

end networkv1

namespace routes

open lagoon generator networkv1

/-- The functions of other packages that `GenerateIngressTemplate` calls.
The validation functions return the list of the messages of the errors they
found, the empty list when the value is valid. -/
structure Library where
  /-- The function `strings.ToLower`. -/
  ToLower : String → String
  /-- The function `validation.IsDNS1123Subdomain`. -/
  IsDNS1123Subdomain : String → List String
  /-- The function `utilvalidation.IsValidLabelValue`. -/
  IsValidLabelValue : String → List String
  /-- The function `apivalidation.ValidateAnnotations`. -/
  ValidateAnnotations : List (String × String) → List String
  /-- The function `metavalidation.ValidateLabels`. -/
  ValidateLabels : List (String × String) → List String
  /-- The function `helpers.GetMD5HashWithNewLine`. -/
  GetMD5HashWithNewLine : String → String
  /-- The function `yaml.Marshal`, on an ingress object. -/
  Marshal : Ingress → Except String String

/-- Go's `len(s)` of a string: its number of bytes. -/
def len (s : String) : Nat := s.utf8ByteSize

/-- The longest prefix of whole characters within the first `n` bytes. -/
def takeBytes : List Char → Nat → List Char
  | [], _ => []
  | c :: cs, n => if c.utf8Size ≤ n then c :: takeBytes cs (n - c.utf8Size) else []

/-- Go's `s[:n]`: `none` is the panic of a slice bound out of range. -/
def slicePrefix (s : String) (n : Nat) : Option String :=
  if n ≤ len s then some ⟨takeBytes s.data n⟩ else none

/-- The value of `strings.Split(s, ".")[0]`: the part of `s` before its
first `.`, all of `s` when it has none.  `Split` with a non-empty separator
never returns an empty slice, so the index is in range. -/
def firstField (s : String) : String := ⟨s.data.takeWhile (fun c => c ≠ '.')⟩

/-- The text that the verb `%v` prints for a slice of messages. -/
def fmtV (errs : List String) : String := "[" ++ " ".intercalate errs ++ "]"

/-- Lines 33-41: the route domain truncated for use in labels and in the
secret name; `none` is a panic. -/
def truncate (lib : Library) (routeDomain : String) : Option String :=
  let truncatedRouteDomain := routeDomain
  if len truncatedRouteDomain ≥ 53 then
    let subdomain := firstField truncatedRouteDomain
    let cut : Option String :=
      if lib.IsValidLabelValue subdomain ≠ [] then slicePrefix subdomain 53 else some subdomain
    match cut with
    | none => none
    | some subdomain =>
      match slicePrefix (lib.GetMD5HashWithNewLine routeDomain) 5 with
      | none => none
      | some hash => some (firstField subdomain ++ "-" ++ hash)
  else some truncatedRouteDomain

/-- Lines 55-67: the default labels. -/
def defaultLabels (truncatedRouteDomain : String) (lValues : BuildValues) :
    List (String × String) :=
  [ ("lagoon.sh/autogenerated", "false"),
    ("helm.sh/chart", "custom-ingress" ++ "-" ++ "0.1.0"),
    ("app.kubernetes.io/name", "custom-ingress"),
    ("app.kubernetes.io/instance", truncatedRouteDomain),
    ("app.kubernetes.io/managed-by", "Helm"),
    ("lagoon.sh/service", truncatedRouteDomain),
    ("lagoon.sh/service-type", "custom-ingress"),
    ("lagoon.sh/project", lValues.Project),
    ("lagoon.sh/environment", lValues.Environment),
    ("lagoon.sh/environmentType", lValues.EnvironmentType),
    ("lagoon.sh/buildType", lValues.BuildType) ]

/-- Lines 68 and 78-84: the additional labels. -/
def additionalLabels (route : RouteV2) (lValues : BuildValues) : List (String × String) :=
  let additionalLabels : List (String × String) := []
  if lValues.EnvironmentType = "production" then
    match route.Migrate with
    | some migrate =>
      gomap.set additionalLabels "dioscuri.amazee.io/migrate" (strconv.FormatBool migrate)
    | none => gomap.set additionalLabels "dioscuri.amazee.io/migrate" "false"
  else additionalLabels

/-- Lines 71-75: the default annotations; `tlsAcme` is `*route.TLSAcme`. -/
def defaultAnnotations (tlsAcme : Bool) (route : RouteV2) (lValues : BuildValues) :
    List (String × String) :=
  [ ("kubernetes.io/tls-acme", strconv.FormatBool tlsAcme),
    ("fastly.amazee.io/watch", strconv.FormatBool route.Fastly.Watch),
    ("lagoon.sh/version", lValues.LagoonVersion) ]

/-- Lines 85-103: the monitoring annotations. -/
def monitoringAnnotations (route : RouteV2) (lValues : BuildValues)
    (m : List (String × String)) : List (String × String) :=
  if lValues.EnvironmentType = "production" then
    let m := gomap.set m "monitor.stakater.com/enabled" "false"
    let m :=
      if lValues.Monitoring.Enabled = true ∧ ¬ route.Autogenerated = true then
        let m := gomap.set m "monitor.stakater.com/enabled" "true"
        let m := gomap.set m "uptimerobot.monitor.stakater.com/alert-contacts" "unconfigured"
        let m :=
          if lValues.Monitoring.AlertContact ≠ "" then
            gomap.set m "uptimerobot.monitor.stakater.com/alert-contacts"
              lValues.Monitoring.AlertContact
          else m
        let m :=
          if lValues.Monitoring.StatusPageID ≠ "" then
            gomap.set m "uptimerobot.monitor.stakater.com/status-pages"
              lValues.Monitoring.StatusPageID
          else m
        gomap.set m "uptimerobot.monitor.stakater.com/interval" "60"
      else m
    if route.MonitoringPath ≠ "" then
      gomap.set m "monitor.stakater.com/overridePath" route.MonitoringPath
    else m
  else m

/-- Lines 104-109: the Fastly annotations. -/
def fastlyAnnotations (route : RouteV2) (m : List (String × String)) :
    List (String × String) :=
  let m :=
    if route.Fastly.ServiceID ≠ "" then
      gomap.set m "fastly.amazee.io/service-id" route.Fastly.ServiceID
    else m
  if route.Fastly.APISecretName ≠ "" then
    gomap.set m "fastly.amazee.io/api-secret-name" route.Fastly.APISecretName
  else m

/-- Lines 110-117: the annotations of the branch or of the pull request. -/
def buildAnnotations (lValues : BuildValues) (m : List (String × String)) :
    List (String × String) :=
  if lValues.BuildType = "branch" then gomap.set m "lagoon.sh/branch" lValues.Branch
  else if lValues.BuildType = "pullrequest" then
    let m := gomap.set m "lagoon.sh/prNumber" lValues.PRNumber
    let m := gomap.set m "lagoon.sh/prHeadBranch" lValues.PRHeadBranch
    gomap.set m "lagoon.sh/prBaseBranch" lValues.PRBaseBranch
  else m

/-- Lines 118-124: the SSL-redirect annotations; `insecure` is
`*route.Insecure`. -/
def insecureAnnotations (insecure : String) (m : List (String × String)) :
    List (String × String) :=
  if insecure = "Allow" then
    let m := gomap.set m "nginx.ingress.kubernetes.io/ssl-redirect" "false"
    gomap.set m "ingress.kubernetes.io/ssl-redirect" "false"
  else if insecure = "Redirect" ∨ insecure = "None" then
    let m := gomap.set m "nginx.ingress.kubernetes.io/ssl-redirect" "true"
    gomap.set m "ingress.kubernetes.io/ssl-redirect" "true"
  else m

/-- Lines 125-127: the noindex directive. -/
def robotsAnnotations (route : RouteV2) (lValues : BuildValues) (m : List (String × String)) :
    List (String × String) :=
  if lValues.EnvironmentType = "development" ∨ route.Autogenerated = true then
    gomap.set m "nginx.ingress.kubernetes.io/server-snippet"
      "add_header X-Robots-Tag \"noindex, nofollow\";\n"
  else m

/-- Lines 130-134: the annotation of the ingress class. -/
def ingressClassAnnotations (route : RouteV2) (m : List (String × String)) :
    List (String × String) :=
  if route.IngressClass ≠ "" then
    gomap.set m "acme.cert-manager.io/http01-ingress-class" route.IngressClass
  else m

/-- Lines 76 and 85-134: the additional annotations, the blocks above run
in the order of the source on the empty map. -/
def additionalAnnotations (insecure : String) (route : RouteV2) (lValues : BuildValues) :
    List (String × String) :=
  let m : List (String × String) := []
  let m := monitoringAnnotations route lValues m
  let m := fastlyAnnotations route m
  let m := buildAnnotations lValues m
  let m := insecureAnnotations insecure m
  let m := robotsAnnotations route lValues m
  ingressClassAnnotations route m

/-- Lines 49-75 and 136-151: the metadata of the ingress object. -/
def objectMeta (routeDomain truncatedRouteDomain : String) (tlsAcme : Bool)
    (insecure : String) (route : RouteV2) (lValues : BuildValues) : ObjectMeta :=
  { Name := if route.Autogenerated = true then route.LagoonService else routeDomain
    Labels :=
      gomap.setAll (gomap.setAll (defaultLabels truncatedRouteDomain lValues)
        (additionalLabels route lValues)) route.Labels
    Annotations :=
      gomap.setAll (gomap.setAll (defaultAnnotations tlsAcme route lValues)
        (additionalAnnotations insecure route lValues)) route.Annotations }

/-- Lines 198-214: the port of the backend service. -/
def servicePort (route : RouteV2) : ServiceBackendPort :=
  let servicePort : ServiceBackendPort := { Name := "http", Number := 0 }
  let servicePort : ServiceBackendPort :=
    match route.ServicePortNumber with
    | some number => { Name := "", Number := number }
    | none => servicePort
  match route.ServicePortName with
  | some name => { Name := name, Number := 0 }
  | none => servicePort

/-- Lines 220-238, and again lines 243-261: the rule of one host. -/
def ingressRule (host : String) (route : RouteV2) (servicePort : ServiceBackendPort) :
    IngressRule :=
  { Host := host
    IngressRuleValue :=
      { HTTP := some
          { Paths :=
              [ { Path := "/"
                  PathType := some PathTypePrefix
                  Backend :=
                    { Service := some { Name := route.LagoonService, Port := servicePort } } } ] } } }

/-- Lines 188-194: the short domains of the services named as the route's
compose service, appended to the hosts of the TLS entry. -/
def shortDomainHosts (routeDomain : String) (route : RouteV2) (lValues : BuildValues)
    (hosts : List String) : List String :=
  lValues.Services.foldl (fun hosts service =>
    if service.Name = route.ComposeService then
      if service.ShortAutogeneratedRouteDomain ≠ "" ∧ len routeDomain > 63 then
        hosts ++ [service.ShortAutogeneratedRouteDomain]
      else hosts
    else hosts) hosts

/-- Lines 129-132 and 165-263: the spec of the ingress object. -/
def ingressSpec (routeDomain truncatedRouteDomain : String) (route : RouteV2)
    (lValues : BuildValues) : IngressSpec :=
  let secretName :=
    if route.Autogenerated = true then route.LagoonService ++ "-tls"
    else truncatedRouteDomain ++ "-tls"
  let hosts : List String := []
  let hosts := shortDomainHosts routeDomain route lValues hosts
  let hosts := hosts ++ [routeDomain]
  let servicePort := servicePort route
  let rules := [ingressRule routeDomain route servicePort]
  let acc := route.AlternativeNames.foldl (fun (acc : List String × List IngressRule)
      alternativeName =>
    (acc.1 ++ [alternativeName], acc.2 ++ [ingressRule alternativeName route servicePort]))
    (hosts, rules)
  { IngressClassName := if route.IngressClass ≠ "" then some route.IngressClass else none
    TLS := [{ Hosts := acc.1, SecretName := secretName }]
    Rules := acc.2 }

/-- The two results of `GenerateIngressTemplate`; a `nil` slice and a
`nil` error are `none`. -/
structure Returned where
  bytes : Option String
  err : Option String
deriving DecidableEq, Repr

/-- The function `GenerateIngressTemplate` of `templates_ingress.go`. -/
def GenerateIngressTemplate (lib : Library) (route : RouteV2) (lValues : BuildValues) :
    Option Returned :=
  let routeDomain := lib.ToLower route.Domain
  let err := lib.IsDNS1123Subdomain (lib.ToLower routeDomain)
  if err ≠ [] then
    some { bytes := none
           err := some ("the provided domain name " ++ route.Domain ++ " is not valid: "
             ++ fmtV err) }
  else
    match truncate lib routeDomain with
    | none => none
    | some truncatedRouteDomain =>
      match route.TLSAcme with
      | none => none
      | some tlsAcme =>
        match route.Insecure with
        | none => none
        | some insecure =>
          let objectMeta := objectMeta routeDomain truncatedRouteDomain tlsAcme insecure
            route lValues
          let err := lib.ValidateAnnotations objectMeta.Annotations
          if err ≠ [] then
            some { bytes := none
                   err := some ("the annotations for " ++ routeDomain ++ " are not valid: "
                     ++ fmtV err) }
          else
            let err := lib.ValidateLabels objectMeta.Labels
            if err ≠ [] then
              some { bytes := none
                     err := some ("the labels for " ++ routeDomain ++ " are not valid: "
                       ++ fmtV err) }
            else
              let ingress : Ingress :=
                { TypeMeta := { Kind := "Ingress", APIVersion := "networking.k8s.io/v1" }
                  ObjectMeta := objectMeta
                  Spec := ingressSpec routeDomain truncatedRouteDomain route lValues }
              match lib.Marshal ingress with
              | .error e => some { bytes := none, err := some e }
              | .ok ingressBytes => some { bytes := some ("---\n" ++ ingressBytes), err := none }

end routes

/-! ## The validation functions of `k8s.io/apimachinery`

The regular expressions of the package are written out as predicates on the
characters of the value; the messages are abbreviated. -/

namespace validation

/-- The class `[a-z0-9]`. -/
def isLowerAlnum (c : Char) : Bool :=
  ('a' ≤ c && c ≤ 'z') || ('0' ≤ c && c ≤ '9')

/-- The class `[A-Za-z0-9]`. -/
def isAlnum (c : Char) : Bool :=
  ('A' ≤ c && c ≤ 'Z') || isLowerAlnum c

/-- The expression `[a-z0-9]([-a-z0-9]*[a-z0-9])?`, matched against a whole
value. -/
def matchesDNS1123Label (value : List Char) : Bool :=
  match value.head?, value.getLast? with
  | some first, some last =>
    isLowerAlnum first && isLowerAlnum last && value.all (fun c => c = '-' || isLowerAlnum c)
  | _, _ => false

/-- The expression of a DNS-1123 subdomain, matched against a whole value:
labels separated by single dots. -/
def matchesDNS1123Subdomain (value : List Char) : Bool :=
  (value.splitOn '.').all matchesDNS1123Label

/-- The expression `([A-Za-z0-9][-A-Za-z0-9_.]*)?[A-Za-z0-9]`, matched
against a whole value. -/
def matchesQualifiedName (value : List Char) : Bool :=
  match value.head?, value.getLast? with
  | some first, some last =>
    isAlnum first && isAlnum last &&
      value.all (fun c => c = '-' || c = '_' || c = '.' || isAlnum c)
  | _, _ => false

/-- Modelled from the spec: the DNS-1123 subdomain validation of the
renderer, `validation.IsDNS1123Subdomain` of `k8s.io/apimachinery`, which is not
under `src/`: at most 253 bytes, and labels `[a-z0-9]([-a-z0-9]*[a-z0-9])?`
separated by single dots. -/
def IsDNS1123Subdomain (value : String) : List String :=
  (if value.utf8ByteSize > 253 then ["must be no more than 253 characters"] else []) ++
  (if matchesDNS1123Subdomain value.data then []
   else ["a lowercase RFC 1123 subdomain must consist of lower case alphanumeric characters"])

/-- Modelled from the spec: the label-value validation of the renderer,
`utilvalidation.IsValidLabelValue` of `k8s.io/apimachinery`, which is not under
`src/`: at most 63 bytes, and empty or `([A-Za-z0-9][-A-Za-z0-9_.]*)?[A-Za-z0-9]`. -/
def IsValidLabelValue (value : String) : List String :=
  (if value.utf8ByteSize > 63 then ["must be no more than 63 characters"] else []) ++
  (if value.data = [] ∨ matchesQualifiedName value.data = true then []
   else ["a valid label must be an empty string or consist of alphanumeric characters"])

/-- The checks of `IsQualifiedName` on the name part. -/
def qualifiedNamePart (name : List Char) : List String :=
  (if name = [] then ["name part must be non-empty"]
   else if (String.mk name).utf8ByteSize > 63 then
     ["name part must be no more than 63 characters"]
   else []) ++
  (if matchesQualifiedName name then []
   else ["name part must consist of alphanumeric characters"])

/-- The function `IsQualifiedName`: an optional DNS subdomain and a slash
before the name. -/
def IsQualifiedName (value : String) : List String :=
  match value.data.splitOn '/' with
  | [name] => qualifiedNamePart name
  | [pre, name] =>
    (if pre = [] then ["prefix part must be non-empty"]
     else (IsDNS1123Subdomain ⟨pre⟩).map (fun msg => "prefix part " ++ msg)) ++
    qualifiedNamePart name
  | _ => ["a qualified name must consist of alphanumeric characters with an optional prefix"]

/-- Modelled from the spec: the validation of the final labels,
`metavalidation.ValidateLabels` of `k8s.io/apimachinery`, which is not under
`src/`: every key is a qualified name and every value a valid label value. -/
def ValidateLabels (labels : List (String × String)) : List String :=
  labels.flatMap (fun kv => IsQualifiedName kv.1 ++ IsValidLabelValue kv.2)

/-- ASCII lower-casing, which is what `strings.ToLower` does to a string of
ASCII characters. -/
def asciiToLower (s : String) : String := ⟨s.data.map Char.toLower⟩

/-- The function `apivalidation.ValidateAnnotations`: every lower-cased key
is a qualified name, and the keys and values together take at most 256 kB. -/
def ValidateAnnotations (annotations : List (String × String)) : List String :=
  annotations.flatMap (fun kv => IsQualifiedName (asciiToLower kv.1)) ++
  (if (annotations.map (fun kv => kv.1.utf8ByteSize + kv.2.utf8ByteSize)).sum > 256 * 1024 then
    ["must have at most 262144 bytes"]
   else [])

end validation

/-! ## Fixtures for the rendering -/

namespace routes

open lagoon generator networkv1

/-- A library for runs on concrete inputs: ASCII lower-casing, the
validation functions above, a fixed text of 32 hexadecimal digits in place of
the digest, and a serializer that always succeeds and writes the name of the
object. -/
def fixtureLibrary : Library :=
  { ToLower := validation.asciiToLower
    IsDNS1123Subdomain := validation.IsDNS1123Subdomain
    IsValidLabelValue := validation.IsValidLabelValue
    ValidateAnnotations := validation.ValidateAnnotations
    ValidateLabels := validation.ValidateLabels
    GetMD5HashWithNewLine := fun _ => "0123456789abcdef0123456789abcdef"
    Marshal := fun ingress => .ok ("metadata:\n  name: " ++ ingress.ObjectMeta.Name ++ "\n") }

/-- A route to the service `nginx` with the given domain, alternative
names, labels and flag, with `TLSAcme` and `Insecure` set. -/
def fixtureRoute (domain : String) (alternativeNames : List String)
    (labels : List (String × String)) (autogenerated : Bool) : RouteV2 :=
  { Domain := domain, LagoonService := "nginx", ComposeService := "nginx"
    TLSAcme := some true, Insecure := some "Redirect", Migrate := none
    Fastly := { Watch := false, ServiceID := "", APISecretName := "" }
    MonitoringPath := "", IngressClass := ""
    ServicePortNumber := none, ServicePortName := none
    Annotations := [], Labels := labels, AlternativeNames := alternativeNames
    Autogenerated := autogenerated }

/-- Build values of a branch build of a production environment with the
given services. -/
def fixtureValues (services : List ServiceValues) : BuildValues :=
  { Project := "demo", Environment := "main", EnvironmentType := "production"
    BuildType := "branch", Branch := "main", PRNumber := "", PRHeadBranch := ""
    PRBaseBranch := "", LagoonVersion := "v2.0.0"
    Monitoring := { Enabled := false, AlertContact := "", StatusPageID := "" }
    Services := services }

end routes

/-! ## The vocabulary of the properties of the rendering -/

namespace routes

open lagoon generator networkv1

/-- The ingress object that `GenerateIngressTemplate` hands to
`yaml.Marshal`, when the truncation does not panic and `TLSAcme` and `Insecure`
are set. -/
def manifest (lib : Library) (route : RouteV2) (lValues : BuildValues) : Option Ingress :=
  match truncate lib (lib.ToLower route.Domain), route.TLSAcme, route.Insecure with
  | some truncatedRouteDomain, some tlsAcme, some insecure =>
    some
      { TypeMeta := { Kind := "Ingress", APIVersion := "networking.k8s.io/v1" }
        ObjectMeta := objectMeta (lib.ToLower route.Domain) truncatedRouteDomain tlsAcme
          insecure route lValues
        Spec := ingressSpec (lib.ToLower route.Domain) truncatedRouteDomain route lValues }
  | _, _, _ => none

/-- The object `m` is the manifest of the route and `out` is the document
separator followed by its serialization. -/
def IsManifestOf (lib : Library) (route : RouteV2) (lValues : BuildValues) (out : String)
    (m : Ingress) : Prop :=
  manifest lib route lValues = some m ∧ ∃ b, lib.Marshal m = .ok b ∧ out = "---\n" ++ b

/-- The backend port as the specification words it: the port name when
one is given, otherwise the port number when one is given, otherwise the name
`http`. -/
def portByPrecedence (route : RouteV2) : ServiceBackendPort :=
  match route.ServicePortName, route.ServicePortNumber with
  | some name, _ => { Name := name, Number := 0 }
  | none, some number => { Name := "", Number := number }
  | none, none => { Name := "http", Number := 0 }

/-- The hosts of the rules of an ingress object. -/
def ruleHosts (m : Ingress) : List String := m.Spec.Rules.map (fun r => r.Host)

end routes

namespace routes

open lagoon generator networkv1

/-- A route whose domain is written with capital letters and that has an
alternative name written with capital letters. -/
def mixedCaseRoute : RouteV2 := fixtureRoute "Example.COM" ["ALT.example.com"] [] false

/-- An autogenerated route whose own labels set `lagoon.sh/autogenerated`. -/
def labelledRoute : RouteV2 :=
  fixtureRoute "example.com" [] [("lagoon.sh/autogenerated", "true")] true

/-- An autogenerated route whose own labels do not set the key. -/
def autogeneratedRoute : RouteV2 := fixtureRoute "example.com" [] [] true

/-- A domain of 66 bytes whose first field has 40. -/
def longDomain : String := "a-long-first-label-of-forty-characters-x.another-label.example.com"

/-- Build values with the service `nginx`, which has a short domain. -/
def valuesWithShortDomain : BuildValues :=
  fixtureValues
    [ { Name := "nginx", OverrideName := "nginx", Type_ := "nginx"
        AutogeneratedRoutesEnabled := true, AutogeneratedRoutesTLSAcme := true
        DBaaSEnvironment := "", BackupsEnabled := false
        ShortAutogeneratedRouteDomain := "short.example.com" } ]

end routes

/-!
# Resolution of one compose service

Only the tests of `composeToServiceValues` (`internal/generator/services_test.go`)
are at hand; the function is modelled from the algorithm of the specification,
steps 1 to 4, and the steps after the short-circuit are a parameter.
-/

namespace generator

/-- The zero value `ServiceValues{}`. -/
def zeroServiceValues : ServiceValues :=
  { Name := "", OverrideName := "", Type_ := ""
    AutogeneratedRoutesEnabled := false, AutogeneratedRoutesTLSAcme := false
    DBaaSEnvironment := "", BackupsEnabled := false
    ShortAutogeneratedRouteDomain := "" }

/-- Modelled from the spec: one entry `name:type` of the comma-separated
list of service-type overrides, split at its first colon; an entry without a
colon is no entry. -/
def overrideEntry (entry : List Char) : Option (String × String) :=
  match entry.span (fun c => c ≠ ':') with
  | (name, _ :: type) => some (⟨name⟩, ⟨type⟩)
  | (_, []) => none

/-- Modelled from the spec: the type that the variable-provided
comma-separated override list (`nginx:nginx-php-persistent,mariadb:mariadb-dbaas`)
gives to the service of the given name, if it has an entry for it. -/
def serviceTypeOverride (overrides : String) (composeService : String) : Option String :=
  gomap.get? ((overrides.data.splitOn ',').filterMap overrideEntry) composeService

/-- Modelled from the spec: the per-environment `Types` override of the
platform YAML for the service, in the environment of the build. -/
def yamlTypeOverride {Route : Type} (lYAML : lagoon.YAML Route) (environment : String)
    (composeService : String) : Option String :=
  match lYAML.Environments.find? (fun e => e.1 = environment) with
  | some e => gomap.get? e.2.Types composeService
  | none => none

/-- Modelled from the spec: steps 1 to 3 of the service resolver of
`composeToServiceValues` (which is not under `src/`).  The base type is the
label `lagoon.type`, absent is the error `MissingServiceType` (`none` here);
the platform-YAML `Types` entry of the service replaces it if present; the
entry of the override list for the service replaces it again. -/
def resolveServiceType {Route : Type} (lYAML : lagoon.YAML Route) (environment : String)
    (overrides : String) (composeService : String) (labels : List (String × String)) :
    Option String :=
  match gomap.get? labels "lagoon.type" with
  | none => none
  | some base =>
    let lagoonType := base
    let lagoonType :=
      match yamlTypeOverride lYAML environment composeService with
      | some t => t
      | none => lagoonType
    let lagoonType :=
      match serviceTypeOverride overrides composeService with
      | some t => t
      | none => lagoonType
    some lagoonType

/-- Modelled from the spec: `composeToServiceValues` of the `generator`
package, which is not under `src/` (its tests are).  Steps 1 to 3 resolve the
type; a missing type label is the error `MissingServiceType` with the zero
record; step 4, the type `none`, returns the zero record and no error; the
steps 5 to 11 of the specification, which compute the record of any other
type, are the parameter `remaining`. -/
def composeToServiceValues {Route : Type}
    (remaining : String → List (String × String) → String → ServiceValues × Option String)
    (lYAML : lagoon.YAML Route) (environment : String) (overrides : String)
    (composeService : String) (labels : List (String × String)) :
    ServiceValues × Option String :=
  match resolveServiceType lYAML environment overrides composeService labels with
  | none => (zeroServiceValues, some "MissingServiceType")
  | some lagoonType =>
    if lagoonType = "none" then (zeroServiceValues, none)
    else remaining composeService labels lagoonType

/-- A platform YAML with the environment `main`, whose `Types` are given. -/
def yamlWithTypes (types : List (String × String)) : lagoon.YAML Unit :=
  { DockerComposeYAML := ""
    Environments := [("main", { AutogenerateRoutes := none, Types := types, Routes := [] })]
    ProductionRoutes := none
    Routes := ⟨{ Enabled := none, AllowPullRequests := none, Insecure := "", Prefixes := [] }⟩ }

/-- A stand-in for the steps 5 to 11: the record with the name and the
type only. -/
def nameAndType (composeService : String) (_labels : List (String × String))
    (lagoonType : String) : ServiceValues × Option String :=
  ({ zeroServiceValues with Name := composeService, OverrideName := composeService
                            Type_ := lagoonType }, none)

end generator

namespace cmd

open lagoon

/-- The remainder as the behaviour is worded for routes without alternative
names: the autogenerated domains after the first, the autogenerated primary
if an explicit route exists, the explicit domains after the first, and, when
the environment is active or standby and has active-standby routes, the
primary computed so far and the active-standby domains after the first. -/
def remaindersInOrder (activeOrStandby : Bool)
    (activeStandby explicit autogenerated : List RouteV2) : List String :=
  autogenerated.tail.map (fun r => sprintf r.Domain) ++
  (if explicit ≠ [] then (autogenerated.take 1).map (fun r => sprintf r.Domain) else []) ++
  explicit.tail.map (fun r => sprintf r.Domain) ++
  (if activeOrStandby = true ∧ activeStandby ≠ [] then
    ((if explicit ≠ [] then explicit else autogenerated).take 1).map
        (fun r => sprintf r.Domain) ++
      activeStandby.tail.map (fun r => sprintf r.Domain)
   else [])

end cmd

namespace routes

open lagoon generator networkv1

/-- Build values of a production environment with monitoring enabled and
no alert contact. -/
def monitoredValues : BuildValues :=
  { fixtureValues [] with
    Monitoring := { Enabled := true, AlertContact := "", StatusPageID := "" } }

/-- A domain of 72 bytes whose first field has 60 bytes and is a valid
label value. -/
def sixtyDomain : String :=
  "first-label-of-sixty-characters-that-is-a-valid-label-value0.example.com"

end routes

/-! ## A serializer and a parser for runs on concrete inputs

The serializer `yaml.Marshal` is a parameter of the rendering.  For runs on
concrete inputs this section gives a serializer of whole ingress objects and its
parser.  Like a serializer of Go maps it writes the entries of a map in the
order of their keys, so two objects whose labels differ in the order of their
entries only have the same serialization.  The format is the sequence of the
fields; a string is its number of characters in unary, a colon, and the
characters. -/

namespace routes

open lagoon generator networkv1

/-- A number in unary: as many `x` as the number, then a colon. -/
def encodeNat (n : Nat) : List Char := List.replicate n 'x' ++ [':']

/-- A string: its number of characters, then the characters. -/
def encodeString (v : String) : List Char := encodeNat v.data.length ++ v.data

/-- A list: its length, then its elements. -/
def encodeList {α : Type} (encode : α → List Char) (l : List α) : List Char :=
  encodeNat l.length ++ l.flatMap encode

/-- A pointer: `n` for `nil`, and `s` before the value. -/
def encodeOption {α : Type} (encode : α → List Char) : Option α → List Char
  | none => ['n']
  | some a => 's' :: encode a

/-- An integer: `p` or `m` for its sign, then the number. -/
def encodeInt : Int → List Char
  | .ofNat n => 'p' :: encodeNat n
  | .negSucc n => 'm' :: encodeNat n

/-- An entry of a map: the key, then the value. -/
def encodeEntry (kv : String × String) : List Char := encodeString kv.1 ++ encodeString kv.2

/-- The fields of a `TypeMeta`. -/
def encodeTypeMeta (v : TypeMeta) : List Char := encodeString v.Kind ++ encodeString v.APIVersion

/-- The fields of an `ObjectMeta`. -/
def encodeObjectMeta (v : ObjectMeta) : List Char :=
  encodeString v.Name ++ (encodeList encodeEntry v.Labels ++
    encodeList encodeEntry v.Annotations)

/-- The fields of a `ServiceBackendPort`. -/
def encodePort (v : ServiceBackendPort) : List Char := encodeString v.Name ++ encodeInt v.Number

/-- The fields of an `IngressServiceBackend`. -/
def encodeService (v : IngressServiceBackend) : List Char :=
  encodeString v.Name ++ encodePort v.Port

/-- The fields of an `HTTPIngressPath`. -/
def encodePath (v : HTTPIngressPath) : List Char :=
  encodeString v.Path ++ (encodeOption encodeString v.PathType ++
    encodeOption encodeService v.Backend.Service)

/-- The paths of an `HTTPIngressRuleValue`. -/
def encodeHTTP (v : HTTPIngressRuleValue) : List Char := encodeList encodePath v.Paths

/-- The fields of an `IngressRule`. -/
def encodeRule (v : IngressRule) : List Char :=
  encodeString v.Host ++ encodeOption encodeHTTP v.IngressRuleValue.HTTP

/-- The fields of an `IngressTLS`. -/
def encodeTLS (v : IngressTLS) : List Char :=
  encodeList encodeString v.Hosts ++ encodeString v.SecretName

/-- The fields of an `IngressSpec`. -/
def encodeSpec (v : IngressSpec) : List Char :=
  encodeOption encodeString v.IngressClassName ++ (encodeList encodeTLS v.TLS ++
    encodeList encodeRule v.Rules)

/-- The fields of an `Ingress`. -/
def encodeIngress (v : Ingress) : List Char :=
  encodeTypeMeta v.TypeMeta ++ (encodeObjectMeta v.ObjectMeta ++ encodeSpec v.Spec)

/-- The first text comes before the second in the order of the
dictionary. -/
def keyBefore : List Char → List Char → Bool
  | [], [] => false
  | [], _ :: _ => true
  | _ :: _, [] => false
  | c :: s, d :: t => decide (c.toNat < d.toNat) || (decide (c = d) && keyBefore s t)

/-- Inserts an entry into a list of entries in the order of their keys,
before the entries of the same key. -/
def insertEntry (kv : String × String) : List (String × String) → List (String × String)
  | [] => [kv]
  | e :: l => if keyBefore e.1.data kv.1.data = true then e :: insertEntry kv l else kv :: e :: l

/-- The entries of a map in the order of their keys. -/
def sortEntries (m : List (String × String)) : List (String × String) :=
  m.foldr insertEntry []

/-- The object with the entries of its labels and of its annotations in
the order of their keys, which is the order in which a serializer writes a
map. -/
def sortedMaps (ingress : Ingress) : Ingress :=
  { ingress with
    ObjectMeta :=
      { ingress.ObjectMeta with
        Labels := sortEntries ingress.ObjectMeta.Labels
        Annotations := sortEntries ingress.ObjectMeta.Annotations } }

/-- The serializer: every field of the object, the maps in the order of
their keys. -/
def fixtureMarshal (ingress : Ingress) : String := ⟨encodeIngress (sortedMaps ingress)⟩

/-- An ingress object with the given labels and no annotations, TLS
entries or rules. -/
def labelsInOrder (labels : List (String × String)) : Ingress :=
  { TypeMeta := { Kind := "Ingress", APIVersion := "networking.k8s.io/v1" }
    ObjectMeta := { Name := "example.com", Labels := labels, Annotations := [] }
    Spec := { IngressClassName := none, TLS := [], Rules := [] } }

end routes

/-! ## Auxiliary facts about the loops -/

namespace cmd

open lagoon

theorem sprintf_injective {a b : String} (h : sprintf a = sprintf b) : a = b := by
  unfold sprintf at h
  have hd := congrArg String.data h
  rw [String.data_append, String.data_append] at hd
  exact String.ext (List.append_cancel_left hd)

theorem sprintf_ne_empty (a : String) : sprintf a ≠ "" := by
  intro h
  have hd := congrArg String.data h
  unfold sprintf pfx at hd
  rw [String.data_append] at hd
  simp at hd

theorem appendAlternativeNames_eq (autogen names : List String) :
    appendAlternativeNames autogen names = autogen ++ names.map sprintf := by
  unfold appendAlternativeNames
  induction names generalizing autogen with
  | nil => simp
  | cons a t ih => simp [List.foldl_cons, ih]

theorem assignAlternativeNames_nil (autogen remainders : List String) :
    assignAlternativeNames autogen remainders [] = remainders := rfl

theorem assignAlternativeNames_eq (autogen remainders names : List String) :
    assignAlternativeNames autogen remainders names =
      match names.getLast? with
      | none => remainders
      | some a => autogen ++ [sprintf a] := by
  unfold assignAlternativeNames
  induction names generalizing remainders with
  | nil => rfl
  | cons a t ih =>
    rw [List.foldl_cons, ih]
    cases t with
    | nil => rfl
    | cons b u =>
      rw [List.getLast?_cons_cons]
      cases hl : (b :: u).getLast? with
      | none => simp at hl
      | some z => rfl

theorem mem_assignAlternativeNames {autogen remainders names : List String} {x : String}
    (h : x ∈ assignAlternativeNames autogen remainders names) :
    x ∈ remainders ∨ x ∈ autogen ∨ ∃ a ∈ names, x = sprintf a := by
  rw [assignAlternativeNames_eq] at h
  cases hl : names.getLast? with
  | none => rw [hl] at h; exact Or.inl h
  | some a =>
    rw [hl] at h
    rcases List.mem_append.mp h with h | h
    · exact Or.inr (Or.inl h)
    · exact Or.inr (Or.inr ⟨a, List.mem_of_getLast?_eq_some hl, by simpa using h⟩)

/-- The loop of lines 65-71 in closed form. -/
theorem autogenLoop_eq (rest : List RouteV2) (s : Locals) :
    rest.foldl (fun st ri =>
      { st with
        remainders := st.remainders ++ [sprintf ri.Domain]
        autogen := appendAlternativeNames (st.autogen ++ [sprintf ri.Domain])
          ri.AlternativeNames }) s =
    { primary := s.primary
      remainders := s.remainders ++ rest.map (fun r => sprintf r.Domain)
      autogen := s.autogen ++ (hostNames rest).map sprintf } := by
  induction rest generalizing s with
  | nil => simp [hostNames]
  | cons r t ih =>
    rw [List.foldl_cons, ih]
    simp [hostNames, appendAlternativeNames_eq]

/-- The block of lines 62-76 in closed form on a non-empty list. -/
theorem autogenBlock_cons (r0 : RouteV2) (rest : List RouteV2) (s : Locals) :
    autogenBlock (r0 :: rest) s =
    { primary := sprintf r0.Domain
      remainders := s.remainders ++ rest.map (fun r => sprintf r.Domain)
      autogen := s.autogen ++ [sprintf r0.Domain] ++ (hostNames rest).map sprintf
        ++ r0.AlternativeNames.map sprintf } := by
  simp only [autogenBlock]
  rw [autogenLoop_eq, appendAlternativeNames_eq]

theorem autogenBlock_nil (s : Locals) : autogenBlock [] s = s := rfl

theorem replaceBlock_nil (s : Locals) : replaceBlock [] s = s := rfl

theorem replaceBlock_primary (r0 : RouteV2) (rest : List RouteV2) (s : Locals) :
    (replaceBlock (r0 :: rest) s).primary = sprintf r0.Domain := rfl

theorem replaceBlock_autogen (routes : List RouteV2) (s : Locals) :
    (replaceBlock routes s).autogen = s.autogen := by
  cases routes <;> rfl

/-- Where the entries of `remainders` come from after the loop of lines
90-95. -/
theorem mem_replaceLoop {autogen : List String} {rest : List RouteV2} {rem0 : List String}
    {x : String}
    (h : x ∈ rest.foldl (fun rem ri =>
      assignAlternativeNames autogen (rem ++ [sprintf ri.Domain]) ri.AlternativeNames) rem0) :
    x ∈ rem0 ∨ x ∈ autogen ∨ ∃ a ∈ hostNames rest, x = sprintf a := by
  induction rest generalizing rem0 with
  | nil => exact Or.inl h
  | cons r t ih =>
    rw [List.foldl_cons] at h
    rcases ih h with h1 | h1 | ⟨a, ha, rfl⟩
    · rcases mem_assignAlternativeNames h1 with h2 | h2 | ⟨a, ha, rfl⟩
      · rcases List.mem_append.mp h2 with h3 | h3
        · exact Or.inl h3
        · refine Or.inr (Or.inr ⟨r.Domain, ?_, by simpa using h3⟩)
          simp [hostNames]
      · exact Or.inr (Or.inl h2)
      · refine Or.inr (Or.inr ⟨a, ?_, rfl⟩)
        simp [hostNames, ha]
    · exact Or.inr (Or.inl h1)
    · refine Or.inr (Or.inr ⟨a, ?_, rfl⟩)
      simp only [hostNames, List.flatMap_cons, List.mem_append]
      exact Or.inr ha

/-- Where the entries of `remainders` come from after the block of lines
85-100. -/
theorem mem_replaceBlock_remainders {r0 : RouteV2} {rest : List RouteV2} {s : Locals}
    {x : String} (h : x ∈ (replaceBlock (r0 :: rest) s).remainders) :
    x ∈ s.remainders ∨ (x = s.primary ∧ s.primary ≠ "") ∨ x ∈ s.autogen ∨
      ∃ a ∈ r0.AlternativeNames ++ hostNames rest, x = sprintf a := by
  simp only [replaceBlock] at h
  rcases mem_assignAlternativeNames h with h1 | h1 | ⟨a, ha, rfl⟩
  · rcases mem_replaceLoop h1 with h2 | h2 | ⟨a, ha, rfl⟩
    · split at h2
      · rename_i hp
        rcases List.mem_append.mp h2 with h3 | h3
        · exact Or.inl h3
        · exact Or.inr (Or.inl ⟨by simpa using h3, hp⟩)
      · exact Or.inl h2
    · exact Or.inr (Or.inr (Or.inl h2))
    · exact Or.inr (Or.inr (Or.inr ⟨a, List.mem_append.mpr (Or.inr ha), rfl⟩))
  · exact Or.inr (Or.inr (Or.inl h1))
  · exact Or.inr (Or.inr (Or.inr ⟨a, List.mem_append.mpr (Or.inl ha), rfl⟩))

end cmd

/-! ## The shape of a run of `generateRoutes` -/

namespace cmd

open lagoon

section run

variable {EnvironmentVariable BuildValues Route : Type}
  (c : Collaborators EnvironmentVariable BuildValues Route)
  (lagoonEnvVars : List EnvironmentVariable) (lagoonValues : BuildValues)
  (lYAML : YAML Route) (autogenRoutes mainRoutes activeStanbyRoutes : RoutesV2)
  (activeEnv standbyEnv debug : Bool)

theorem generateRoutes_err_eq_none_iff :
    (generateRoutes c lagoonEnvVars lagoonValues lYAML autogenRoutes mainRoutes
        activeStanbyRoutes activeEnv standbyEnv debug).err = none ↔
      (autogenCall c lagoonEnvVars lagoonValues lYAML autogenRoutes).err = none ∧
      (ingressCall c lagoonEnvVars lagoonValues lYAML autogenRoutes mainRoutes debug).err
        = none := by
  simp only [generateRoutes, ingressCall, autogenCall]
  cases ha : (c.generateAutogenRoutes lagoonEnvVars lYAML lagoonValues autogenRoutes).err with
  | some e => simp
  | none =>
    cases hg : (c.generateIngress
      (c.generateAutogenRoutes lagoonEnvVars lYAML lagoonValues autogenRoutes).lagoonValues
      (c.generateAutogenRoutes lagoonEnvVars lYAML lagoonValues autogenRoutes).lYAML
      lagoonEnvVars mainRoutes debug).err with
    | some e => simp
    | none =>
      simp only [and_self, iff_true]
      split <;> rfl

/-- On a run in which both fallible collaborators succeed, the three
results are the locals after the three blocks. -/
theorem generateRoutes_locals
    (ha : (autogenCall c lagoonEnvVars lagoonValues lYAML autogenRoutes).err = none)
    (hg : (ingressCall c lagoonEnvVars lagoonValues lYAML autogenRoutes mainRoutes debug).err
      = none) :
    ({ primary := (generateRoutes c lagoonEnvVars lagoonValues lYAML autogenRoutes mainRoutes
          activeStanbyRoutes activeEnv standbyEnv debug).primary
       remainders := (generateRoutes c lagoonEnvVars lagoonValues lYAML autogenRoutes mainRoutes
          activeStanbyRoutes activeEnv standbyEnv debug).remainders
       autogen := (generateRoutes c lagoonEnvVars lagoonValues lYAML autogenRoutes mainRoutes
          activeStanbyRoutes activeEnv standbyEnv debug).autogen } : Locals) =
      replaceBlock
        (if (activeEnv || standbyEnv) = true then
          (activeStandbyCall c lagoonEnvVars lagoonValues lYAML autogenRoutes activeEnv
            standbyEnv).Routes
         else [])
        (replaceBlock
          (ingressCall c lagoonEnvVars lagoonValues lYAML autogenRoutes mainRoutes
            debug).mainRoutes.Routes
          (autogenBlock (autogenCall c lagoonEnvVars lagoonValues lYAML autogenRoutes).autogenRoutes.Routes
            { primary := "", remainders := [], autogen := [] })) := by
  simp only [ingressCall, autogenCall] at hg
  simp only [autogenCall] at ha
  simp only [generateRoutes, activeStandbyCall, ingressCall, autogenCall, ha, hg]
  split <;> simp [replaceBlock_nil]

end run

end cmd

namespace cmd

open lagoon

section projections

variable {EnvironmentVariable BuildValues Route : Type}
  (c : Collaborators EnvironmentVariable BuildValues Route)
  (lagoonEnvVars : List EnvironmentVariable) (lagoonValues : BuildValues)
  (lYAML : YAML Route) (autogenRoutes mainRoutes activeStanbyRoutes : RoutesV2)
  (activeEnv standbyEnv debug : Bool)

theorem generateRoutes_locals_of_ok
    (hok : (generateRoutes c lagoonEnvVars lagoonValues lYAML autogenRoutes mainRoutes
      activeStanbyRoutes activeEnv standbyEnv debug).err = none) :
    ({ primary := (generateRoutes c lagoonEnvVars lagoonValues lYAML autogenRoutes mainRoutes
          activeStanbyRoutes activeEnv standbyEnv debug).primary
       remainders := (generateRoutes c lagoonEnvVars lagoonValues lYAML autogenRoutes mainRoutes
          activeStanbyRoutes activeEnv standbyEnv debug).remainders
       autogen := (generateRoutes c lagoonEnvVars lagoonValues lYAML autogenRoutes mainRoutes
          activeStanbyRoutes activeEnv standbyEnv debug).autogen } : Locals) =
      replaceBlock
        (if (activeEnv || standbyEnv) = true then
          (activeStandbyCall c lagoonEnvVars lagoonValues lYAML autogenRoutes activeEnv
            standbyEnv).Routes
         else [])
        (replaceBlock
          (ingressCall c lagoonEnvVars lagoonValues lYAML autogenRoutes mainRoutes
            debug).mainRoutes.Routes
          (autogenBlock (autogenCall c lagoonEnvVars lagoonValues lYAML autogenRoutes).autogenRoutes.Routes
            { primary := "", remainders := [], autogen := [] })) := by
  have h := (generateRoutes_err_eq_none_iff c lagoonEnvVars lagoonValues lYAML autogenRoutes
    mainRoutes activeStanbyRoutes activeEnv standbyEnv debug).mp hok
  exact generateRoutes_locals c lagoonEnvVars lagoonValues lYAML autogenRoutes mainRoutes
    activeStanbyRoutes activeEnv standbyEnv debug h.1 h.2

end projections

theorem replaceBlock_primary_eq (routes : List RouteV2) (s : Locals) :
    (replaceBlock routes s).primary =
      if routes ≠ [] then firstDomainURL routes else s.primary := by
  cases routes <;> simp [replaceBlock, firstDomainURL]

theorem autogenBlock_primary_eq (routes : List RouteV2) (s : Locals) :
    (autogenBlock routes s).primary =
      if routes ≠ [] then firstDomainURL routes else s.primary := by
  cases routes <;> simp [autogenBlock, firstDomainURL]

theorem autogenBlock_autogen_perm (routes : List RouteV2) :
    List.Perm (autogenBlock routes { primary := "", remainders := [], autogen := [] }).autogen
      ((hostNames routes).map sprintf) := by
  cases routes with
  | nil => simp [autogenBlock, hostNames]
  | cons r0 rest =>
    rw [autogenBlock_cons]
    simp only [List.nil_append, hostNames, List.flatMap_cons, List.map_append, List.map_cons,
      List.singleton_append, List.cons_append, List.perm_cons]
    exact List.perm_append_comm

section claims

variable {EnvironmentVariable BuildValues Route : Type}
  (c : Collaborators EnvironmentVariable BuildValues Route)
  (lagoonEnvVars : List EnvironmentVariable) (lagoonValues : BuildValues)
  (lYAML : YAML Route) (autogenRoutes mainRoutes activeStanbyRoutes : RoutesV2)
  (activeEnv standbyEnv debug : Bool)

/-- C1: on every run of `generateRoutes` that succeeds, the primary is
chosen by source precedence: the URL of the first active-standby route when the
environment is active or standby and that set is non-empty, otherwise the URL
of the first explicit route when there is one, otherwise the URL of the first
autogenerated route when there is one, otherwise the empty string. -/
theorem generateRoutes_primary_precedence
    (hok : (generateRoutes c lagoonEnvVars lagoonValues lYAML autogenRoutes mainRoutes
      activeStanbyRoutes activeEnv standbyEnv debug).err = none) :
    (generateRoutes c lagoonEnvVars lagoonValues lYAML autogenRoutes mainRoutes
      activeStanbyRoutes activeEnv standbyEnv debug).primary =
    primaryByPrecedence (activeEnv || standbyEnv)
      (activeStandbyCall c lagoonEnvVars lagoonValues lYAML autogenRoutes activeEnv
        standbyEnv).Routes
      (ingressCall c lagoonEnvVars lagoonValues lYAML autogenRoutes mainRoutes
        debug).mainRoutes.Routes
      (autogenCall c lagoonEnvVars lagoonValues lYAML autogenRoutes).autogenRoutes.Routes := by
  have h := congrArg Locals.primary (generateRoutes_locals_of_ok c lagoonEnvVars lagoonValues
    lYAML autogenRoutes mainRoutes activeStanbyRoutes activeEnv standbyEnv debug hok)
  simp only at h
  rw [h, replaceBlock_primary_eq, replaceBlock_primary_eq, autogenBlock_primary_eq]
  unfold primaryByPrecedence
  by_cases hf : (activeEnv || standbyEnv) = true
  · simp only [hf, if_true, true_and]
  · simp [hf]

/-- C8: `generateRoutes` returns an error exactly when
`generateAutogenRoutes` or `generateIngress` returns one; whatever
`generateActiveStandby` computes has no part in it; and a run that returns an
error returns the empty primary and two empty lists. -/
theorem generateRoutes_error_iff :
    ((generateRoutes c lagoonEnvVars lagoonValues lYAML autogenRoutes mainRoutes
        activeStanbyRoutes activeEnv standbyEnv debug).err ≠ none ↔
      (autogenCall c lagoonEnvVars lagoonValues lYAML autogenRoutes).err ≠ none ∨
      (ingressCall c lagoonEnvVars lagoonValues lYAML autogenRoutes mainRoutes debug).err
        ≠ none) ∧
    (∀ f : Bool → Bool → List EnvironmentVariable → YAML Route → RoutesV2,
      (generateRoutes { c with generateActiveStandby := f } lagoonEnvVars lagoonValues lYAML
        autogenRoutes mainRoutes activeStanbyRoutes activeEnv standbyEnv debug).err =
      (generateRoutes c lagoonEnvVars lagoonValues lYAML autogenRoutes mainRoutes
        activeStanbyRoutes activeEnv standbyEnv debug).err) ∧
    ((generateRoutes c lagoonEnvVars lagoonValues lYAML autogenRoutes mainRoutes
        activeStanbyRoutes activeEnv standbyEnv debug).err ≠ none →
      (generateRoutes c lagoonEnvVars lagoonValues lYAML autogenRoutes mainRoutes
        activeStanbyRoutes activeEnv standbyEnv debug).primary = "" ∧
      (generateRoutes c lagoonEnvVars lagoonValues lYAML autogenRoutes mainRoutes
        activeStanbyRoutes activeEnv standbyEnv debug).remainders = [] ∧
      (generateRoutes c lagoonEnvVars lagoonValues lYAML autogenRoutes mainRoutes
        activeStanbyRoutes activeEnv standbyEnv debug).autogen = []) := by
  refine ⟨?_, ?_, ?_⟩
  · rw [ne_eq, generateRoutes_err_eq_none_iff]
    exact not_and_or
  · intro f
    simp only [generateRoutes]
    cases (c.generateAutogenRoutes lagoonEnvVars lYAML lagoonValues autogenRoutes).err with
    | some e => rfl
    | none =>
      simp only
      cases (c.generateIngress
        (c.generateAutogenRoutes lagoonEnvVars lYAML lagoonValues autogenRoutes).lagoonValues
        (c.generateAutogenRoutes lagoonEnvVars lYAML lagoonValues autogenRoutes).lYAML
        lagoonEnvVars mainRoutes debug).err with
      | some e => rfl
      | none => simp only; split <;> rfl
  · simp only [generateRoutes]
    cases (c.generateAutogenRoutes lagoonEnvVars lYAML lagoonValues autogenRoutes).err with
    | some e => simp
    | none =>
      simp only
      cases (c.generateIngress
        (c.generateAutogenRoutes lagoonEnvVars lYAML lagoonValues autogenRoutes).lagoonValues
        (c.generateAutogenRoutes lagoonEnvVars lYAML lagoonValues autogenRoutes).lYAML
        lagoonEnvVars mainRoutes debug).err with
      | some e => simp
      | none => simp only; split <;> simp

/-- C9: when the autogenerated, the explicit and the active-standby route
sets are all empty and no collaborator fails, `generateRoutes` returns the
empty primary, an empty remainder list, an empty autogen list and no error,
whatever the active and standby flags are. -/
theorem generateRoutes_no_routes
    (ha : (autogenCall c lagoonEnvVars lagoonValues lYAML autogenRoutes).err = none)
    (hg : (ingressCall c lagoonEnvVars lagoonValues lYAML autogenRoutes mainRoutes debug).err
      = none)
    (hau : (autogenCall c lagoonEnvVars lagoonValues lYAML autogenRoutes).autogenRoutes.Routes
      = [])
    (hex : (ingressCall c lagoonEnvVars lagoonValues lYAML autogenRoutes mainRoutes
      debug).mainRoutes.Routes = [])
    (has : (activeStandbyCall c lagoonEnvVars lagoonValues lYAML autogenRoutes activeEnv
      standbyEnv).Routes = []) :
    (generateRoutes c lagoonEnvVars lagoonValues lYAML autogenRoutes mainRoutes
      activeStanbyRoutes activeEnv standbyEnv debug).primary = "" ∧
    (generateRoutes c lagoonEnvVars lagoonValues lYAML autogenRoutes mainRoutes
      activeStanbyRoutes activeEnv standbyEnv debug).remainders = [] ∧
    (generateRoutes c lagoonEnvVars lagoonValues lYAML autogenRoutes mainRoutes
      activeStanbyRoutes activeEnv standbyEnv debug).autogen = [] ∧
    (generateRoutes c lagoonEnvVars lagoonValues lYAML autogenRoutes mainRoutes
      activeStanbyRoutes activeEnv standbyEnv debug).err = none := by
  have hok := (generateRoutes_err_eq_none_iff c lagoonEnvVars lagoonValues lYAML autogenRoutes
    mainRoutes activeStanbyRoutes activeEnv standbyEnv debug).mpr ⟨ha, hg⟩
  have h := generateRoutes_locals c lagoonEnvVars lagoonValues lYAML autogenRoutes mainRoutes
    activeStanbyRoutes activeEnv standbyEnv debug ha hg
  rw [hau, hex, has] at h
  simp only [ite_self, replaceBlock_nil, autogenBlock_nil, Locals.mk.injEq] at h
  exact ⟨h.1, h.2.1, h.2.2, hok⟩

end claims

end cmd

namespace cmd

open lagoon

theorem tracked_autogenBlock (routes : List RouteV2) (h : (hostNames routes).Nodup) :
    Tracked (hostNames routes)
      (autogenBlock routes { primary := "", remainders := [], autogen := [] }) := by
  cases routes with
  | nil => simp [Tracked, autogenBlock]
  | cons r0 rest =>
    rw [autogenBlock_cons]
    simp only [hostNames, List.flatMap_cons, List.cons_append, List.nodup_cons,
      List.mem_append, not_or] at h
    refine ⟨?_, ?_, ?_, ?_⟩
    · intro x hx
      simp only [List.nil_append, List.mem_map] at hx
      obtain ⟨r, hr, rfl⟩ := hx
      refine ⟨r.Domain, ?_, rfl⟩
      simp only [hostNames, List.flatMap_cons, List.cons_append, List.mem_cons, List.mem_append,
        List.mem_flatMap]
      exact Or.inr (Or.inr ⟨r, hr, by simp⟩)
    · intro x hx
      simp only [List.nil_append, List.singleton_append, List.cons_append, List.mem_cons,
        List.mem_append, List.mem_map] at hx
      simp only [hostNames, List.flatMap_cons, List.cons_append, List.mem_cons, List.mem_append]
      rcases hx with rfl | ⟨a, ha, rfl⟩ | ⟨a, ha, rfl⟩
      · exact ⟨r0.Domain, Or.inl rfl, rfl⟩
      · exact ⟨a, Or.inr (Or.inr ha), rfl⟩
      · exact ⟨a, Or.inr (Or.inl ha), rfl⟩
    · right
      exact ⟨r0.Domain, by simp [hostNames], rfl⟩
    · intro hx
      simp only [List.nil_append, List.mem_map] at hx
      obtain ⟨r, hr, he⟩ := hx
      have hd : r.Domain = r0.Domain := sprintf_injective he
      apply h.1.2
      rw [← hd]
      simp only [List.mem_flatMap]
      exact ⟨r, hr, by simp⟩

theorem tracked_replaceBlock (routes : List RouteV2) (s : Locals) (seen : List String)
    (ht : Tracked seen s) (h : (seen ++ hostNames routes).Nodup) :
    Tracked (seen ++ hostNames routes) (replaceBlock routes s) := by
  obtain ⟨hrem, hag, hp, hnot⟩ := ht
  cases routes with
  | nil =>
    simp only [replaceBlock_nil, hostNames, List.flatMap_nil, List.append_nil]
    exact ⟨hrem, hag, hp, hnot⟩
  | cons r0 rest =>
    have hsplit : hostNames (r0 :: rest) =
        r0.Domain :: (r0.AlternativeNames ++ hostNames rest) := by
      simp [hostNames]
    rw [hsplit] at h ⊢
    have hnd := List.nodup_append.mp h
    have hfresh : r0.Domain ∉ seen := fun hm =>
      hnd.2.2 hm (List.mem_cons_self _ _)
    have hfresh2 : r0.Domain ∉ r0.AlternativeNames ++ hostNames rest :=
      (List.nodup_cons.mp hnd.2.1).1
    have hsrc : ∀ x ∈ (replaceBlock (r0 :: rest) s).remainders,
        ∃ a, (a ∈ seen ∨ a ∈ r0.AlternativeNames ++ hostNames rest) ∧ x = sprintf a := by
      intro x hx
      rcases mem_replaceBlock_remainders hx with h1 | ⟨h1, hne⟩ | h1 | ⟨a, ha, rfl⟩
      · obtain ⟨a, ha, rfl⟩ := hrem x h1
        exact ⟨a, Or.inl ha, rfl⟩
      · rcases hp with hp | ⟨a, ha, hp⟩
        · exact absurd hp hne
        · exact ⟨a, Or.inl ha, h1.trans hp⟩
      · obtain ⟨a, ha, rfl⟩ := hag x h1
        exact ⟨a, Or.inl ha, rfl⟩
      · exact ⟨a, Or.inr ha, rfl⟩
    refine ⟨?_, ?_, ?_, ?_⟩
    · intro x hx
      obtain ⟨a, ha, rfl⟩ := hsrc x hx
      refine ⟨a, ?_, rfl⟩
      rcases ha with ha | ha
      · exact List.mem_append.mpr (Or.inl ha)
      · exact List.mem_append.mpr (Or.inr (List.mem_cons_of_mem _ ha))
    · intro x hx
      rw [replaceBlock_autogen] at hx
      obtain ⟨a, ha, rfl⟩ := hag x hx
      exact ⟨a, List.mem_append.mpr (Or.inl ha), rfl⟩
    · right
      exact ⟨r0.Domain, List.mem_append.mpr (Or.inr (List.mem_cons_self _ _)), rfl⟩
    · intro hx
      obtain ⟨a, ha, he⟩ := hsrc _ hx
      rw [replaceBlock_primary] at he
      have hd : r0.Domain = a := sprintf_injective he
      rcases ha with ha | ha
      · exact hfresh (hd ▸ ha)
      · exact hfresh2 (hd ▸ ha)

end cmd

namespace cmd

open lagoon

section claims

variable {EnvironmentVariable BuildValues Route : Type}
  (c : Collaborators EnvironmentVariable BuildValues Route)
  (lagoonEnvVars : List EnvironmentVariable) (lagoonValues : BuildValues)
  (lYAML : YAML Route) (autogenRoutes mainRoutes activeStanbyRoutes : RoutesV2)
  (activeEnv standbyEnv debug : Bool)

/-- C5: on every run of `generateRoutes` that succeeds, the autogen list
holds exactly the URLs of the domain and of every alternative name of every
autogenerated route (it is a permutation of that list of URLs), and it is the
same list for any other explicit-route and active-standby collaborators, route
pointers and flags with which the run succeeds. -/
theorem generateRoutes_autogen_report
    (hok : (generateRoutes c lagoonEnvVars lagoonValues lYAML autogenRoutes mainRoutes
      activeStanbyRoutes activeEnv standbyEnv debug).err = none) :
    List.Perm
      (generateRoutes c lagoonEnvVars lagoonValues lYAML autogenRoutes mainRoutes
        activeStanbyRoutes activeEnv standbyEnv debug).autogen
      ((hostNames
        (autogenCall c lagoonEnvVars lagoonValues lYAML autogenRoutes).autogenRoutes.Routes).map
          sprintf) ∧
    ∀ (c2 : Collaborators EnvironmentVariable BuildValues Route)
      (mainRoutes2 activeStanbyRoutes2 : RoutesV2) (activeEnv2 standbyEnv2 debug2 : Bool),
      c2.generateAutogenRoutes = c.generateAutogenRoutes →
      (generateRoutes c2 lagoonEnvVars lagoonValues lYAML autogenRoutes mainRoutes2
        activeStanbyRoutes2 activeEnv2 standbyEnv2 debug2).err = none →
      (generateRoutes c2 lagoonEnvVars lagoonValues lYAML autogenRoutes mainRoutes2
        activeStanbyRoutes2 activeEnv2 standbyEnv2 debug2).autogen =
      (generateRoutes c lagoonEnvVars lagoonValues lYAML autogenRoutes mainRoutes
        activeStanbyRoutes activeEnv standbyEnv debug).autogen := by
  have key : ∀ (c2 : Collaborators EnvironmentVariable BuildValues Route)
      (mainRoutes2 activeStanbyRoutes2 : RoutesV2) (activeEnv2 standbyEnv2 debug2 : Bool),
      (generateRoutes c2 lagoonEnvVars lagoonValues lYAML autogenRoutes mainRoutes2
        activeStanbyRoutes2 activeEnv2 standbyEnv2 debug2).err = none →
      (generateRoutes c2 lagoonEnvVars lagoonValues lYAML autogenRoutes mainRoutes2
        activeStanbyRoutes2 activeEnv2 standbyEnv2 debug2).autogen =
      (autogenBlock (autogenCall c2 lagoonEnvVars lagoonValues lYAML
        autogenRoutes).autogenRoutes.Routes
        { primary := "", remainders := [], autogen := [] }).autogen := by
    intro c2 m2 s2 a2 b2 d2 h2
    have h := congrArg Locals.autogen (generateRoutes_locals_of_ok c2 lagoonEnvVars
      lagoonValues lYAML autogenRoutes m2 s2 a2 b2 d2 h2)
    simp only at h
    rw [h, replaceBlock_autogen, replaceBlock_autogen]
  refine ⟨?_, ?_⟩
  · rw [key c mainRoutes activeStanbyRoutes activeEnv standbyEnv debug hok]
    exact autogenBlock_autogen_perm _
  · intro c2 m2 s2 a2 b2 d2 hc h2
    rw [key c2 m2 s2 a2 b2 d2 h2, key c mainRoutes activeStanbyRoutes activeEnv standbyEnv
      debug hok]
    simp only [autogenCall, hc]

/-- C6, as amended: when only autogenerated routes exist (no explicit
route, neither active nor standby), the remainder is, in order, the URLs of the
domains of the autogenerated routes after the first, and the URL of every
alternative name of every autogenerated route, the first included, is in the
autogen list. -/
theorem generateRoutes_autogenerated_only
    (ha : (autogenCall c lagoonEnvVars lagoonValues lYAML autogenRoutes).err = none)
    (hg : (ingressCall c lagoonEnvVars lagoonValues lYAML autogenRoutes mainRoutes debug).err
      = none)
    (hex : (ingressCall c lagoonEnvVars lagoonValues lYAML autogenRoutes mainRoutes
      debug).mainRoutes.Routes = []) :
    (generateRoutes c lagoonEnvVars lagoonValues lYAML autogenRoutes mainRoutes
      activeStanbyRoutes false false debug).remainders =
      ((autogenCall c lagoonEnvVars lagoonValues lYAML autogenRoutes).autogenRoutes.Routes.tail).map
        (fun r => sprintf r.Domain) ∧
    ∀ r ∈ (autogenCall c lagoonEnvVars lagoonValues lYAML autogenRoutes).autogenRoutes.Routes,
      ∀ n ∈ r.AlternativeNames,
        sprintf n ∈ (generateRoutes c lagoonEnvVars lagoonValues lYAML autogenRoutes mainRoutes
          activeStanbyRoutes false false debug).autogen := by
  have h := generateRoutes_locals c lagoonEnvVars lagoonValues lYAML autogenRoutes mainRoutes
    activeStanbyRoutes false false debug ha hg
  rw [hex] at h
  simp only [Bool.or_self, Bool.false_eq_true, if_false, replaceBlock_nil] at h
  have hrem := congrArg Locals.remainders h
  have hag := congrArg Locals.autogen h
  simp only at hrem hag
  rw [hrem, hag]
  cases (autogenCall c lagoonEnvVars lagoonValues lYAML autogenRoutes).autogenRoutes.Routes with
  | nil => simp [autogenBlock]
  | cons r0 rest =>
    rw [autogenBlock_cons]
    refine ⟨by simp, ?_⟩
    intro r hr n hn
    simp only [List.nil_append, List.singleton_append, List.cons_append, List.mem_cons,
      List.mem_append, List.mem_map]
    rcases List.mem_cons.mp hr with rfl | hr
    · exact Or.inr (Or.inr ⟨n, hn, rfl⟩)
    · refine Or.inr (Or.inl ⟨n, ?_, rfl⟩)
      simp only [hostNames, List.mem_flatMap]
      exact ⟨r, hr, List.mem_cons_of_mem _ hn⟩

/-- C7, as amended: on every run of `generateRoutes` that succeeds, when
the host names (domains and alternative names) of the routes taken into
account (autogenerated, explicit, and active-standby when the environment is
active or standby) are pairwise distinct, the primary, empty or not, does not
occur in the remainder list. -/
theorem generateRoutes_primary_not_in_remainders
    (hok : (generateRoutes c lagoonEnvVars lagoonValues lYAML autogenRoutes mainRoutes
      activeStanbyRoutes activeEnv standbyEnv debug).err = none)
    (hnd : (hostNames
        (autogenCall c lagoonEnvVars lagoonValues lYAML autogenRoutes).autogenRoutes.Routes ++
      hostNames (ingressCall c lagoonEnvVars lagoonValues lYAML autogenRoutes mainRoutes
        debug).mainRoutes.Routes ++
      hostNames (if (activeEnv || standbyEnv) = true then
        (activeStandbyCall c lagoonEnvVars lagoonValues lYAML autogenRoutes activeEnv
          standbyEnv).Routes else [])).Nodup) :
    (generateRoutes c lagoonEnvVars lagoonValues lYAML autogenRoutes mainRoutes
      activeStanbyRoutes activeEnv standbyEnv debug).primary ∉
    (generateRoutes c lagoonEnvVars lagoonValues lYAML autogenRoutes mainRoutes
      activeStanbyRoutes activeEnv standbyEnv debug).remainders := by
  have h := generateRoutes_locals_of_ok c lagoonEnvVars lagoonValues lYAML autogenRoutes
    mainRoutes activeStanbyRoutes activeEnv standbyEnv debug hok
  have hp := congrArg Locals.primary h
  have hr := congrArg Locals.remainders h
  simp only at hp hr
  rw [hp, hr]
  have h12 := (List.nodup_append.mp hnd).1
  have h1 := (List.nodup_append.mp h12).1
  exact (tracked_replaceBlock _ _ _
    (tracked_replaceBlock _ _ _ (tracked_autogenBlock _ h1) h12) hnd).2.2.2

/-- C3, as amended: with exactly one autogenerated route, exactly two
explicit routes and neither active nor standby, the primary is the URL of the
first explicit route, the URL of the former autogenerated primary occurs in the
remainder, and it occurs there exactly once when the autogenerated domain
differs from the domain of the second explicit route and from every alternative
name of the three routes. -/
theorem generateRoutes_one_autogenerated_two_explicit (A E0 E1 : RouteV2)
    (ha : (autogenCall c lagoonEnvVars lagoonValues lYAML autogenRoutes).err = none)
    (hg : (ingressCall c lagoonEnvVars lagoonValues lYAML autogenRoutes mainRoutes debug).err
      = none)
    (hau : (autogenCall c lagoonEnvVars lagoonValues lYAML autogenRoutes).autogenRoutes.Routes
      = [A])
    (hex : (ingressCall c lagoonEnvVars lagoonValues lYAML autogenRoutes mainRoutes
      debug).mainRoutes.Routes = [E0, E1]) :
    (generateRoutes c lagoonEnvVars lagoonValues lYAML autogenRoutes mainRoutes
      activeStanbyRoutes false false debug).primary = sprintf E0.Domain ∧
    sprintf A.Domain ∈ (generateRoutes c lagoonEnvVars lagoonValues lYAML autogenRoutes
      mainRoutes activeStanbyRoutes false false debug).remainders ∧
    (A.Domain ≠ E1.Domain → A.Domain ∉ A.AlternativeNames →
      A.Domain ∉ E0.AlternativeNames → A.Domain ∉ E1.AlternativeNames →
      List.count (sprintf A.Domain) (generateRoutes c lagoonEnvVars lagoonValues lYAML
        autogenRoutes mainRoutes activeStanbyRoutes false false debug).remainders = 1) := by
  have h := generateRoutes_locals c lagoonEnvVars lagoonValues lYAML autogenRoutes mainRoutes
    activeStanbyRoutes false false debug ha hg
  rw [hau, hex] at h
  simp only [Bool.or_self, Bool.false_eq_true, if_false, replaceBlock_nil] at h
  have hp := congrArg Locals.primary h
  have hrem := congrArg Locals.remainders h
  simp only at hp hrem
  rw [hp, hrem, autogenBlock_cons]
  have hurl : ∀ l : List String, A.Domain ∉ l →
      List.count (sprintf A.Domain) (l.map sprintf) = 0 := by
    intro l hl
    rw [List.count_eq_zero]
    intro hm
    obtain ⟨a, ha, he⟩ := List.mem_map.mp hm
    exact hl (sprintf_injective he ▸ ha)
  have hlast : ∀ (l : List String) (a : String), l.getLast? = some a → A.Domain ∉ l →
      sprintf a ≠ sprintf A.Domain := by
    intro l a hl hn he
    exact hn (sprintf_injective he ▸ List.mem_of_getLast?_eq_some hl)
  simp only [replaceBlock, assignAlternativeNames_eq, sprintf_ne_empty, ne_eq,
    not_false_eq_true, if_true, List.nil_append, List.foldl_cons, List.foldl_nil,
    List.map_nil, hostNames, List.flatMap_nil, List.append_nil, List.singleton_append,
    List.cons_append, true_and]
  cases h0 : E0.AlternativeNames.getLast? with
  | some a0 =>
    refine ⟨by simp, ?_⟩
    intro _ hA h0n _
    simp only [List.count_cons_self, List.count_append, hurl _ hA, List.count_cons,
      List.count_nil, beq_iff_eq, hlast _ _ h0 h0n, if_false]
  | none =>
    cases h1 : E1.AlternativeNames.getLast? with
    | some a1 =>
      refine ⟨by simp, ?_⟩
      intro _ hA _ h1n
      simp only [List.count_cons_self, List.count_append, hurl _ hA, List.count_cons,
        List.count_nil, beq_iff_eq, hlast _ _ h1 h1n, if_false]
    | none =>
      refine ⟨by simp, ?_⟩
      intro hne _ _ _
      have hne2 : sprintf E1.Domain ≠ sprintf A.Domain := fun he => hne (sprintf_injective he).symm
      simp only [List.count_cons_self, List.count_cons, List.count_nil, beq_iff_eq, hne2,
        if_false]

end claims

end cmd

namespace cmd

open lagoon

section frame

variable {EnvironmentVariable BuildValues Route : Type}
  (c : Collaborators EnvironmentVariable BuildValues Route)
  (lagoonEnvVars : List EnvironmentVariable) (lagoonValues : BuildValues)
  (lYAML : YAML Route) (autogenRoutes mainRoutes activeStanbyRoutes : RoutesV2)
  (debug : Bool)

/-- C10: when the environment is neither active nor standby,
`generateRoutes` does not consult the production-routes block: the
active-standby synthesis is not run (any other `generateActiveStandby` gives
the same results) and the active-standby route set passed in is left as it
is; so, the two other collaborators not reading `production_routes` either,
the primary, the remainder, the autogen list and the error are the same for
two YAML configurations that differ only in `production_routes`. -/
theorem generateRoutes_production_routes_frame
    (p : Option (ProductionRoutes Route))
    (f : Bool → Bool → List EnvironmentVariable → YAML Route → RoutesV2)
    (hA : ∃ p2,
      c.generateAutogenRoutes lagoonEnvVars (withProductionRoutes lYAML p) lagoonValues
        autogenRoutes =
      { c.generateAutogenRoutes lagoonEnvVars lYAML lagoonValues autogenRoutes with
        lYAML := withProductionRoutes
          (c.generateAutogenRoutes lagoonEnvVars lYAML lagoonValues autogenRoutes).lYAML p2 })
    (hI : ∀ (v : BuildValues) (y : YAML Route) (q : Option (ProductionRoutes Route)),
      c.generateIngress v (withProductionRoutes y q) lagoonEnvVars mainRoutes debug =
      c.generateIngress v y lagoonEnvVars mainRoutes debug) :
    (generateRoutes { c with generateActiveStandby := f } lagoonEnvVars lagoonValues
      (withProductionRoutes lYAML p) autogenRoutes mainRoutes activeStanbyRoutes
      false false debug) =
    (generateRoutes c lagoonEnvVars lagoonValues lYAML autogenRoutes mainRoutes
      activeStanbyRoutes false false debug) ∧
    (generateRoutes c lagoonEnvVars lagoonValues lYAML autogenRoutes mainRoutes
      activeStanbyRoutes false false debug).activeStanbyRoutes = activeStanbyRoutes := by
  obtain ⟨p2, hA⟩ := hA
  constructor
  · simp only [generateRoutes, hA, hI, Bool.or_self, Bool.false_eq_true, if_false]
  · simp only [generateRoutes, Bool.or_self, Bool.false_eq_true, if_false]
    cases (c.generateAutogenRoutes lagoonEnvVars lYAML lagoonValues autogenRoutes).err with
    | some e => rfl
    | none =>
      simp only
      cases (c.generateIngress
        (c.generateAutogenRoutes lagoonEnvVars lYAML lagoonValues autogenRoutes).lagoonValues
        (c.generateAutogenRoutes lagoonEnvVars lYAML lagoonValues autogenRoutes).lYAML
        lagoonEnvVars mainRoutes debug).err with
      | some e => rfl
      | none => rfl

end frame

end cmd

/-! ## Runs on concrete inputs -/

namespace cmd

open lagoon

/-- Witness of C1: one route of each source in an active environment; the
active-standby route wins. -/
theorem generateRoutes_primary_precedence_witness :
    (runOn [routeOf "a.example.com" []] [routeOf "e.example.com" []]
      [routeOf "s.example.com" []] true false).err = none ∧
    (runOn [routeOf "a.example.com" []] [routeOf "e.example.com" []]
      [routeOf "s.example.com" []] true false).primary =
      primaryByPrecedence true [routeOf "s.example.com" []] [routeOf "e.example.com" []]
        [routeOf "a.example.com" []] :=
  ⟨by decide,
   generateRoutes_primary_precedence
     (collaboratorsOf [routeOf "a.example.com" []] [routeOf "e.example.com" []]
       [routeOf "s.example.com" []]) [] () emptyYAML ⟨[]⟩ ⟨[]⟩ ⟨[]⟩ true false false
     (by decide)⟩

/-- C2, the run that diverges: no autogenerated route, the explicit route
`a.example.com`, the active-standby route `b.example.com` with the alternative
name `c.example.com`, in an active environment.  The primary computed from the
explicit source is `https://a.example.com`; the run returns the primary
`https://b.example.com` and the remainder `[https://c.example.com]`, from which
`https://a.example.com` is missing. -/
theorem generateRoutes_active_standby_drops_previous_primary :
    (runOn [] [routeOf "a.example.com" []] [] false false).primary
      = "https://a.example.com" ∧
    (runOn [] [routeOf "a.example.com" []]
      [routeOf "b.example.com" ["c.example.com"]] true false).err = none ∧
    (runOn [] [routeOf "a.example.com" []]
      [routeOf "b.example.com" ["c.example.com"]] true false).primary
      = "https://b.example.com" ∧
    (runOn [] [routeOf "a.example.com" []]
      [routeOf "b.example.com" ["c.example.com"]] true false).remainders
      = ["https://c.example.com"] ∧
    "https://a.example.com" ∉ (runOn [] [routeOf "a.example.com" []]
      [routeOf "b.example.com" ["c.example.com"]] true false).remainders := by
  decide

/-- Counterexample to C3: one autogenerated route `a.example.com`, the two
explicit routes `e.example.com` and `a.example.com`, neither active nor
standby: the URL of the former autogenerated primary occurs twice in the
remainder. -/
theorem generateRoutes_former_primary_twice :
    (runOn [routeOf "a.example.com" []]
      [routeOf "e.example.com" [], routeOf "a.example.com" []] [] false false).err = none ∧
    (runOn [routeOf "a.example.com" []]
      [routeOf "e.example.com" [], routeOf "a.example.com" []] [] false false).primary
      = sprintf "e.example.com" ∧
    ¬ List.count (sprintf "a.example.com") (runOn [routeOf "a.example.com" []]
      [routeOf "e.example.com" [], routeOf "a.example.com" []] [] false false).remainders
      = 1 := by
  decide

/-- Witness of C3, as amended: the autogenerated route `a.example.com` and
the explicit routes `e.example.com` (with an alternative name) and
`f.example.com`. -/
theorem generateRoutes_one_autogenerated_two_explicit_witness :
    (runOn [routeOf "a.example.com" []]
      [routeOf "e.example.com" ["g.example.com"], routeOf "f.example.com" []] []
      false false).primary = sprintf "e.example.com" ∧
    sprintf "a.example.com" ∈ (runOn [routeOf "a.example.com" []]
      [routeOf "e.example.com" ["g.example.com"], routeOf "f.example.com" []] []
      false false).remainders ∧
    List.count (sprintf "a.example.com") (runOn [routeOf "a.example.com" []]
      [routeOf "e.example.com" ["g.example.com"], routeOf "f.example.com" []] []
      false false).remainders = 1 :=
  have h := generateRoutes_one_autogenerated_two_explicit
    (collaboratorsOf [routeOf "a.example.com" []]
      [routeOf "e.example.com" ["g.example.com"], routeOf "f.example.com" []] [])
    [] () emptyYAML ⟨[]⟩ ⟨[]⟩ ⟨[]⟩ false
    (routeOf "a.example.com" []) (routeOf "e.example.com" ["g.example.com"])
    (routeOf "f.example.com" []) rfl rfl rfl rfl
  ⟨h.1, h.2.1, h.2.2 (by decide) (by decide) (by decide) (by decide)⟩

/-- C4, the run that diverges: no autogenerated route, the explicit routes
`a.example.com` (with the alternative name `x.example.com`) and
`b.example.com`, neither active nor standby.  The run returns the remainder
`[https://x.example.com]`, from which the URL of the second explicit route is
missing. -/
theorem generateRoutes_explicit_drops_later_domain :
    (runOn [] [routeOf "a.example.com" ["x.example.com"], routeOf "b.example.com" []] []
      false false).err = none ∧
    (runOn [] [routeOf "a.example.com" ["x.example.com"], routeOf "b.example.com" []] []
      false false).remainders = ["https://x.example.com"] ∧
    sprintf "b.example.com" ∉
      (runOn [] [routeOf "a.example.com" ["x.example.com"], routeOf "b.example.com" []] []
        false false).remainders := by
  decide

/-- Witness of C5: two autogenerated routes, one with an alternative name,
and one explicit route. -/
theorem generateRoutes_autogen_report_witness :
    (runOn [routeOf "a.example.com" ["x.example.com"], routeOf "b.example.com" []]
      [routeOf "e.example.com" []] [] false false).err = none ∧
    List.Perm
      (runOn [routeOf "a.example.com" ["x.example.com"], routeOf "b.example.com" []]
        [routeOf "e.example.com" []] [] false false).autogen
      ((hostNames [routeOf "a.example.com" ["x.example.com"],
        routeOf "b.example.com" []]).map sprintf) :=
  ⟨by decide,
   (generateRoutes_autogen_report
     (collaboratorsOf [routeOf "a.example.com" ["x.example.com"], routeOf "b.example.com" []]
       [routeOf "e.example.com" []] []) [] () emptyYAML ⟨[]⟩ ⟨[]⟩ ⟨[]⟩ false false false
     (by decide)).1⟩

/-- Counterexample to C6: the autogenerated routes `a.example.com` and
`b.example.com`, the second with the alternative name `c.example.com`, and
nothing else: the URL of that alternative name is not in the remainder. -/
theorem generateRoutes_autogenerated_alternative_not_in_remainders :
    (runOn [routeOf "a.example.com" [], routeOf "b.example.com" ["c.example.com"]] [] []
      false false).err = none ∧
    sprintf "c.example.com" ∉
      (runOn [routeOf "a.example.com" [], routeOf "b.example.com" ["c.example.com"]] [] []
        false false).remainders := by
  decide

/-- Witness of C6, as amended: the same two autogenerated routes. -/
theorem generateRoutes_autogenerated_only_witness :
    (runOn [routeOf "a.example.com" [], routeOf "b.example.com" ["c.example.com"]] [] []
      false false).remainders = [sprintf "b.example.com"] ∧
    sprintf "c.example.com" ∈
      (runOn [routeOf "a.example.com" [], routeOf "b.example.com" ["c.example.com"]] [] []
        false false).autogen :=
  have h := generateRoutes_autogenerated_only
    (collaboratorsOf [routeOf "a.example.com" [], routeOf "b.example.com" ["c.example.com"]]
      [] []) [] () emptyYAML ⟨[]⟩ ⟨[]⟩ ⟨[]⟩ false rfl rfl rfl
  ⟨h.1, h.2 (routeOf "b.example.com" ["c.example.com"]) (by decide) "c.example.com"
    (by decide)⟩

/-- Counterexample to C7: the autogenerated route `a.example.com` and an
explicit route with the same domain: the run succeeds with the primary
`https://a.example.com`, which is also in the remainder. -/
theorem generateRoutes_primary_in_remainders :
    (runOn [routeOf "a.example.com" []] [routeOf "a.example.com" []] [] false false).err
      = none ∧
    (runOn [routeOf "a.example.com" []] [routeOf "a.example.com" []] [] false false).primary
      ≠ "" ∧
    (runOn [routeOf "a.example.com" []] [routeOf "a.example.com" []] [] false false).primary ∈
    (runOn [routeOf "a.example.com" []] [routeOf "a.example.com" []] [] false false).remainders := by
  decide

/-- Witness of C7, as amended: one route of each source, with an
alternative name on the active-standby route, in a standby environment. -/
theorem generateRoutes_primary_not_in_remainders_witness :
    (runOn [routeOf "a.example.com" []] [routeOf "e.example.com" []]
      [routeOf "s.example.com" ["t.example.com"]] false true).err = none ∧
    (runOn [routeOf "a.example.com" []] [routeOf "e.example.com" []]
      [routeOf "s.example.com" ["t.example.com"]] false true).primary ∉
    (runOn [routeOf "a.example.com" []] [routeOf "e.example.com" []]
      [routeOf "s.example.com" ["t.example.com"]] false true).remainders :=
  ⟨by decide,
   generateRoutes_primary_not_in_remainders
     (collaboratorsOf [routeOf "a.example.com" []] [routeOf "e.example.com" []]
       [routeOf "s.example.com" ["t.example.com"]]) [] () emptyYAML ⟨[]⟩ ⟨[]⟩ ⟨[]⟩
     false true false (by decide) (by decide)⟩

/-- Witness of C9: no route of any kind, in an environment flagged both
active and standby. -/
theorem generateRoutes_no_routes_witness :
    (runOn [] [] [] true true).primary = "" ∧
    (runOn [] [] [] true true).remainders = [] ∧
    (runOn [] [] [] true true).autogen = [] ∧
    (runOn [] [] [] true true).err = none :=
  generateRoutes_no_routes (collaboratorsOf [] [] []) [] () emptyYAML ⟨[]⟩ ⟨[]⟩ ⟨[]⟩
    true true false rfl rfl rfl rfl rfl

/-- Witness of C10: collaborators that produce fixed route lists, a YAML
file given a production-routes block, and another active-standby synthesis. -/
theorem generateRoutes_production_routes_frame_witness :
    generateRoutes
      { collaboratorsOf [routeOf "a.example.com" []] [] [] with
        generateActiveStandby := fun _ _ _ _ => ⟨[routeOf "s.example.com" []]⟩ }
      [] () (withProductionRoutes emptyYAML (some ⟨none, none⟩)) ⟨[]⟩ ⟨[]⟩
      ⟨[routeOf "z.example.com" []]⟩ false false false =
    generateRoutes (collaboratorsOf [routeOf "a.example.com" []] [] []) [] () emptyYAML
      ⟨[]⟩ ⟨[]⟩ ⟨[routeOf "z.example.com" []]⟩ false false false ∧
    (generateRoutes (collaboratorsOf [routeOf "a.example.com" []] [] []) [] () emptyYAML
      ⟨[]⟩ ⟨[]⟩ ⟨[routeOf "z.example.com" []]⟩ false false false).activeStanbyRoutes
      = ⟨[routeOf "z.example.com" []]⟩ :=
  generateRoutes_production_routes_frame (collaboratorsOf [routeOf "a.example.com" []] [] [])
    [] () emptyYAML ⟨[]⟩ ⟨[]⟩ ⟨[routeOf "z.example.com" []]⟩ false (some ⟨none, none⟩)
    (fun _ _ _ _ => ⟨[routeOf "s.example.com" []]⟩)
    ⟨some ⟨none, none⟩, rfl⟩ (fun _ _ _ => rfl)

end cmd

/-! ## Facts about maps -/

namespace gomap

theorem get?_set (m : List (String × String)) (key value k : String) :
    get? (set m key value) k = if k = key then some value else get? m k := by
  induction m with
  | nil =>
    by_cases h : k = key
    · simp [set, get?, h]
    · have h2 : ¬ key = k := fun e => h e.symm
      simp [set, get?, h, h2]
  | cons p rest ih =>
    obtain ⟨a, b⟩ := p
    by_cases hk : a = key
    · by_cases h : k = key
      · simp [set, get?, hk, h]
      · have h2 : ¬ key = k := fun e => h e.symm
        simp [set, get?, hk, h, h2]
    · by_cases h : k = key
      · subst h
        simp [set, get?, hk, ih]
      · simp only [set, hk, if_false, get?, ih, h]

theorem get?_setAll_of_not_mem (dst src : List (String × String)) (k : String)
    (h : k ∉ keys src) : get? (setAll dst src) k = get? dst k := by
  unfold setAll
  induction src generalizing dst with
  | nil => rfl
  | cons p rest ih =>
    simp only [keys, List.map_cons, List.mem_cons, not_or] at h
    rw [List.foldl_cons, ih _ h.2, get?_set, if_neg h.1]

theorem get?_setAll_of_mem (dst src : List (String × String)) (k v : String)
    (hnd : (keys src).Nodup) (h : (k, v) ∈ src) : get? (setAll dst src) k = some v := by
  unfold setAll
  induction src generalizing dst with
  | nil => simp at h
  | cons p rest ih =>
    simp only [keys, List.map_cons, List.nodup_cons] at hnd
    rw [List.foldl_cons]
    rcases List.mem_cons.mp h with h | h
    · have hk : k ∉ keys rest := by rw [← h] at hnd; exact hnd.1
      have := get?_setAll_of_not_mem (set dst p.1 p.2) rest k hk
      unfold setAll at this
      rw [this, get?_set, ← h]
      simp
    · exact ih _ hnd.2 h

theorem get?_eq_none_of_not_mem (m : List (String × String)) (k : String) (h : k ∉ keys m) :
    get? m k = none := by
  induction m with
  | nil => rfl
  | cons p rest ih =>
    simp only [keys, List.map_cons, List.mem_cons, not_or] at h
    have h1 : ¬ p.1 = k := fun e => h.1 e.symm
    simp only [get?, h1, if_false]
    exact ih h.2

theorem get?_eq_some_of_mem (m : List (String × String)) (k v : String)
    (hnd : (keys m).Nodup) (h : (k, v) ∈ m) : get? m k = some v := by
  induction m with
  | nil => simp at h
  | cons p rest ih =>
    simp only [keys, List.map_cons, List.nodup_cons] at hnd
    rcases List.mem_cons.mp h with h | h
    · rw [← h]; simp [get?]
    · have h1 : ¬ p.1 = k := by
        intro e
        apply hnd.1
        rw [e]
        exact List.mem_map.mpr ⟨(k, v), h, rfl⟩
      simp only [get?, h1, if_false]
      exact ih hnd.2 h

theorem mem_keys_of_get? (m : List (String × String)) (k v : String) (h : get? m k = some v) :
    (k, v) ∈ m := by
  induction m with
  | nil => simp [get?] at h
  | cons p rest ih =>
    obtain ⟨a, b⟩ := p
    by_cases hk : a = k
    · simp only [get?, hk, if_true, Option.some.injEq] at h
      rw [hk, h]; exact List.mem_cons_self _ _
    · simp only [get?, hk, if_false] at h
      exact List.mem_cons_of_mem _ (ih h)

/-- A map built by the loop holds, for every key, the value of the source
when the source has the key and the value of the destination otherwise. -/
theorem get?_setAll (dst src : List (String × String)) (k : String)
    (hnd : (keys src).Nodup) :
    get? (setAll dst src) k = (get? src k).orElse (fun _ => get? dst k) := by
  cases hs : get? src k with
  | some v =>
    rw [get?_setAll_of_mem dst src k v hnd (mem_keys_of_get? _ _ _ hs)]
    rfl
  | none =>
    have hk : k ∉ keys src := by
      intro hm
      obtain ⟨p, hp, rfl⟩ := List.mem_map.mp hm
      rw [get?_eq_some_of_mem src p.1 p.2 hnd hp] at hs
      exact Option.noConfusion hs
    rw [get?_setAll_of_not_mem dst src k hk]
    rfl

theorem keys_set (m : List (String × String)) (key value : String) :
    keys (set m key value) = if key ∈ keys m then keys m else keys m ++ [key] := by
  induction m with
  | nil => simp [set, keys]
  | cons p rest ih =>
    obtain ⟨a, b⟩ := p
    by_cases hk : a = key
    · simp [set, keys, hk]
    · have h2 : ¬ key = a := fun e => hk e.symm
      simp only [set, hk, if_false]
      simp only [keys, List.map_cons, List.mem_cons, h2, false_or] at ih ⊢
      rw [ih]
      split <;> simp

theorem nodup_keys_set (m : List (String × String)) (key value : String)
    (h : (keys m).Nodup) : (keys (set m key value)).Nodup := by
  rw [keys_set]
  split
  · exact h
  · rename_i hk
    exact List.nodup_append.mpr ⟨h, List.nodup_singleton _, by
      intro a ha hb
      rw [List.mem_singleton.mp hb] at ha
      exact hk ha⟩

end gomap

/-! ## The shape of a run of `GenerateIngressTemplate` -/

namespace routes

open lagoon generator networkv1

/-- A run that returns bytes and no error has passed the three validations
and serialized the manifest. -/
theorem rendered_manifest (lib : Library) (route : RouteV2) (lValues : BuildValues)
    (out : String)
    (h : GenerateIngressTemplate lib route lValues = some { bytes := some out, err := none }) :
    ∃ t a i, truncate lib (lib.ToLower route.Domain) = some t ∧ route.TLSAcme = some a ∧
      route.Insecure = some i ∧
      lib.IsDNS1123Subdomain (lib.ToLower (lib.ToLower route.Domain)) = [] ∧
      lib.ValidateAnnotations
        (objectMeta (lib.ToLower route.Domain) t a i route lValues).Annotations = [] ∧
      lib.ValidateLabels (objectMeta (lib.ToLower route.Domain) t a i route lValues).Labels = [] ∧
      IsManifestOf lib route lValues out
        { TypeMeta := { Kind := "Ingress", APIVersion := "networking.k8s.io/v1" }
          ObjectMeta := objectMeta (lib.ToLower route.Domain) t a i route lValues
          Spec := ingressSpec (lib.ToLower route.Domain) t route lValues } := by
  simp only [GenerateIngressTemplate] at h
  split at h
  · simp at h
  · rename_i hdns
    cases ht : truncate lib (lib.ToLower route.Domain) with
    | none => simp [ht] at h
    | some t =>
      cases ha : route.TLSAcme with
      | none => simp [ht, ha] at h
      | some a =>
        cases hi : route.Insecure with
        | none => simp [ht, ha, hi] at h
        | some i =>
          simp only [ht, ha, hi] at h
          split at h
          · simp at h
          · rename_i hva
            split at h
            · simp at h
            · rename_i hvl
              cases hm : lib.Marshal
                { TypeMeta := { Kind := "Ingress", APIVersion := "networking.k8s.io/v1" }
                  ObjectMeta := objectMeta (lib.ToLower route.Domain) t a i route lValues
                  Spec := ingressSpec (lib.ToLower route.Domain) t route lValues } with
              | error e => simp [hm] at h
              | ok b =>
                simp only [hm, Option.some.injEq, Returned.mk.injEq, and_true] at h
                refine ⟨t, a, i, rfl, rfl, rfl, ?_, ?_, ?_, ?_, b, hm, h.symm⟩
                · simpa using hdns
                · simpa using hva
                · simpa using hvl
                · simp [manifest, ht, ha, hi]

/-- The loop of lines 241-263 in closed form. -/
theorem alternativeNames_fold (route : RouteV2) (port : ServiceBackendPort)
    (names : List String) (hosts : List String) (rules : List IngressRule) :
    names.foldl (fun (acc : List String × List IngressRule) alternativeName =>
      (acc.1 ++ [alternativeName], acc.2 ++ [ingressRule alternativeName route port]))
      (hosts, rules) =
    (hosts ++ names, rules ++ names.map (fun n => ingressRule n route port)) := by
  induction names generalizing hosts rules with
  | nil => simp
  | cons n rest ih => simp [List.foldl_cons, ih]

/-- The loop of lines 188-194 adds nothing when no service has the name of
the route's compose service. -/
theorem shortDomainFold_of_no_service (routeDomain composeService : String)
    (services : List ServiceValues) (hosts : List String)
    (h : ∀ s ∈ services, s.Name ≠ composeService) :
    services.foldl (fun hosts service =>
      if service.Name = composeService then
        if service.ShortAutogeneratedRouteDomain ≠ "" ∧ len routeDomain > 63 then
          hosts ++ [service.ShortAutogeneratedRouteDomain]
        else hosts
      else hosts) hosts = hosts := by
  induction services generalizing hosts with
  | nil => rfl
  | cons s rest ih =>
    rw [List.foldl_cons, if_neg (h s (List.mem_cons_self _ _))]
    exact ih hosts (fun x hx => h x (List.mem_cons_of_mem _ hx))

/-- The loop of lines 188-194 when the names of the services are pairwise
distinct: it adds the short domain of the service named as the route's compose
service, when that service has one and the domain is longer than 63 bytes. -/
theorem shortDomainFold_of_nodup (routeDomain composeService : String)
    (services : List ServiceValues) (hosts : List String)
    (hnd : (services.map (fun s => s.Name)).Nodup) :
    services.foldl (fun hosts service =>
      if service.Name = composeService then
        if service.ShortAutogeneratedRouteDomain ≠ "" ∧ len routeDomain > 63 then
          hosts ++ [service.ShortAutogeneratedRouteDomain]
        else hosts
      else hosts) hosts =
    hosts ++
      (match services.find? (fun s => s.Name = composeService) with
       | some s =>
         if s.ShortAutogeneratedRouteDomain ≠ "" ∧ len routeDomain > 63 then
           [s.ShortAutogeneratedRouteDomain]
         else []
       | none => []) := by
  induction services generalizing hosts with
  | nil => simp
  | cons s rest ih =>
    simp only [List.map_cons, List.nodup_cons] at hnd
    rw [List.foldl_cons]
    by_cases hs : s.Name = composeService
    · have hrest : ∀ x ∈ rest, x.Name ≠ composeService := by
        intro x hx he
        apply hnd.1
        rw [hs, ← he]
        exact List.mem_map.mpr ⟨x, hx, rfl⟩
      rw [shortDomainFold_of_no_service _ _ _ _ hrest]
      simp only [hs, if_true, List.find?_cons, decide_True]
      split <;> simp
    · rw [if_neg hs, ih hosts hnd.2]
      simp [List.find?_cons, hs]

/-- The spec of the ingress object in closed form. -/
theorem ingressSpec_eq (routeDomain truncatedRouteDomain : String) (route : RouteV2)
    (lValues : BuildValues) :
    ingressSpec routeDomain truncatedRouteDomain route lValues =
    { IngressClassName := if route.IngressClass ≠ "" then some route.IngressClass else none
      TLS :=
        [{ Hosts := shortDomainHosts routeDomain route lValues [] ++ [routeDomain]
             ++ route.AlternativeNames
           SecretName :=
             if route.Autogenerated = true then route.LagoonService ++ "-tls"
             else truncatedRouteDomain ++ "-tls" }]
      Rules := ingressRule routeDomain route (servicePort route) ::
        route.AlternativeNames.map (fun n => ingressRule n route (servicePort route)) } := by
  simp only [ingressSpec, alternativeNames_fold, List.singleton_append]

theorem servicePort_eq (route : RouteV2) : servicePort route = portByPrecedence route := by
  unfold servicePort portByPrecedence
  cases route.ServicePortName <;> cases route.ServicePortNumber <;> rfl

end routes

namespace routes

open lagoon generator networkv1

theorem nodup_keys_defaultLabels (t : String) (lValues : BuildValues) :
    (gomap.keys (defaultLabels t lValues)).Nodup := by
  simp only [defaultLabels, gomap.keys, List.map_cons, List.map_nil]
  decide

theorem nodup_keys_defaultAnnotations (a : Bool) (route : RouteV2) (lValues : BuildValues) :
    (gomap.keys (defaultAnnotations a route lValues)).Nodup := by
  simp only [defaultAnnotations, gomap.keys, List.map_cons, List.map_nil]
  decide

theorem nodup_keys_additionalLabels (route : RouteV2) (lValues : BuildValues) :
    (gomap.keys (additionalLabels route lValues)).Nodup := by
  unfold additionalLabels
  split
  · split <;> exact gomap.nodup_keys_set _ _ _ List.nodup_nil
  · exact List.nodup_nil

theorem nodup_keys_monitoringAnnotations (route : RouteV2) (lValues : BuildValues)
    (m : List (String × String)) (h : (gomap.keys m).Nodup) :
    (gomap.keys (monitoringAnnotations route lValues m)).Nodup := by
  unfold monitoringAnnotations
  split_ifs <;> first | exact h | (repeat (apply gomap.nodup_keys_set)); exact h

theorem nodup_keys_fastlyAnnotations (route : RouteV2) (m : List (String × String))
    (h : (gomap.keys m).Nodup) : (gomap.keys (fastlyAnnotations route m)).Nodup := by
  unfold fastlyAnnotations
  split_ifs <;> first | exact h | (repeat (apply gomap.nodup_keys_set)); exact h

theorem nodup_keys_buildAnnotations (lValues : BuildValues) (m : List (String × String))
    (h : (gomap.keys m).Nodup) : (gomap.keys (buildAnnotations lValues m)).Nodup := by
  unfold buildAnnotations
  split_ifs <;> first | exact h | (repeat (apply gomap.nodup_keys_set)); exact h

theorem nodup_keys_insecureAnnotations (insecure : String) (m : List (String × String))
    (h : (gomap.keys m).Nodup) : (gomap.keys (insecureAnnotations insecure m)).Nodup := by
  unfold insecureAnnotations
  split_ifs <;> first | exact h | (repeat (apply gomap.nodup_keys_set)); exact h

theorem nodup_keys_robotsAnnotations (route : RouteV2) (lValues : BuildValues)
    (m : List (String × String)) (h : (gomap.keys m).Nodup) :
    (gomap.keys (robotsAnnotations route lValues m)).Nodup := by
  unfold robotsAnnotations
  split_ifs <;> first | exact h | (repeat (apply gomap.nodup_keys_set)); exact h

theorem nodup_keys_ingressClassAnnotations (route : RouteV2) (m : List (String × String))
    (h : (gomap.keys m).Nodup) : (gomap.keys (ingressClassAnnotations route m)).Nodup := by
  unfold ingressClassAnnotations
  split_ifs <;> first | exact h | (repeat (apply gomap.nodup_keys_set)); exact h

theorem nodup_keys_additionalAnnotations (insecure : String) (route : RouteV2)
    (lValues : BuildValues) :
    (gomap.keys (additionalAnnotations insecure route lValues)).Nodup := by
  unfold additionalAnnotations
  exact nodup_keys_ingressClassAnnotations _ _
    (nodup_keys_robotsAnnotations _ _ _
      (nodup_keys_insecureAnnotations _ _
        (nodup_keys_buildAnnotations _ _
          (nodup_keys_fastlyAnnotations _ _
            (nodup_keys_monitoringAnnotations _ _ _ List.nodup_nil)))))

/-- The labels of the metadata: the route's own value when the route has
the key, otherwise the additional label, otherwise the default one. -/
theorem get?_objectMeta_labels (rd t : String) (a : Bool) (i : String) (route : RouteV2)
    (lValues : BuildValues) (k : String) (hL : (gomap.keys route.Labels).Nodup) :
    gomap.get? (objectMeta rd t a i route lValues).Labels k =
      (gomap.get? route.Labels k).orElse (fun _ =>
        (gomap.get? (additionalLabels route lValues) k).orElse (fun _ =>
          gomap.get? (defaultLabels t lValues) k)) := by
  simp only [objectMeta]
  rw [gomap.get?_setAll _ _ _ hL, gomap.get?_setAll _ _ _ (nodup_keys_additionalLabels _ _)]

/-- The annotations of the metadata, likewise. -/
theorem get?_objectMeta_annotations (rd t : String) (a : Bool) (i : String) (route : RouteV2)
    (lValues : BuildValues) (k : String) (hA : (gomap.keys route.Annotations).Nodup) :
    gomap.get? (objectMeta rd t a i route lValues).Annotations k =
      (gomap.get? route.Annotations k).orElse (fun _ =>
        (gomap.get? (additionalAnnotations i route lValues) k).orElse (fun _ =>
          gomap.get? (defaultAnnotations a route lValues) k)) := by
  simp only [objectMeta]
  rw [gomap.get?_setAll _ _ _ hA,
    gomap.get?_setAll _ _ _ (nodup_keys_additionalAnnotations _ _ _)]

/-- A label that the route does not set has the value that the additional
and the default labels give it. -/
theorem get?_objectMeta_labels_of_not_mem (rd t : String) (a : Bool) (i : String)
    (route : RouteV2) (lValues : BuildValues) (k : String)
    (hk : k ∉ gomap.keys route.Labels) :
    gomap.get? (objectMeta rd t a i route lValues).Labels k =
      (gomap.get? (additionalLabels route lValues) k).orElse (fun _ =>
        gomap.get? (defaultLabels t lValues) k) := by
  simp only [objectMeta]
  rw [gomap.get?_setAll_of_not_mem _ _ _ hk,
    gomap.get?_setAll _ _ _ (nodup_keys_additionalLabels _ _)]

/-- An annotation that the route does not set has the value that the
additional and the default annotations give it. -/
theorem get?_objectMeta_annotations_of_not_mem (rd t : String) (a : Bool) (i : String)
    (route : RouteV2) (lValues : BuildValues) (k : String)
    (hk : k ∉ gomap.keys route.Annotations) :
    gomap.get? (objectMeta rd t a i route lValues).Annotations k =
      (gomap.get? (additionalAnnotations i route lValues) k).orElse (fun _ =>
        gomap.get? (defaultAnnotations a route lValues) k) := by
  simp only [objectMeta]
  rw [gomap.get?_setAll_of_not_mem _ _ _ hk,
    gomap.get?_setAll _ _ _ (nodup_keys_additionalAnnotations _ _ _)]

theorem get?_additionalLabels_of_ne (route : RouteV2) (lValues : BuildValues) (k : String)
    (hk : k ≠ "dioscuri.amazee.io/migrate") :
    gomap.get? (additionalLabels route lValues) k = none := by
  unfold additionalLabels
  split
  · split <;> (rw [gomap.get?_set, if_neg hk]; rfl)
  · rfl

end routes

/-! ## Properties of the rendered manifest -/

namespace routes

open lagoon generator networkv1

section rendered

variable (lib : Library) (route : RouteV2) (lValues : BuildValues) (out : String)

/-- C13: for every successfully rendered route, the name in the metadata
of the manifest is the lowercased domain when the route is not autogenerated
and the target service name `LagoonService` when it is. -/
theorem manifest_name
    (h : GenerateIngressTemplate lib route lValues = some { bytes := some out, err := none }) :
    ∃ m, IsManifestOf lib route lValues out m ∧
      (route.Autogenerated = false → m.ObjectMeta.Name = lib.ToLower route.Domain) ∧
      (route.Autogenerated = true → m.ObjectMeta.Name = route.LagoonService) := by
  obtain ⟨t, a, i, _, _, _, _, _, _, hm⟩ := rendered_manifest lib route lValues out h
  refine ⟨_, hm, ?_, ?_⟩
  · intro hf
    simp [objectMeta, hf]
  · intro ht
    simp [objectMeta, ht]

/-- C14: for every successfully rendered route whose label and annotation
maps are maps (no key twice), every key of the route's `Labels` is in the
labels of the manifest with the route's value, every key of the route's
`Annotations` is in the annotations of the manifest with the route's value, and
a key that the route does not mention has the value of the computed
conditionals, or of the fixed defaults when no conditional sets it. -/
theorem manifest_route_maps_win
    (hL : (gomap.keys route.Labels).Nodup) (hA : (gomap.keys route.Annotations).Nodup)
    (h : GenerateIngressTemplate lib route lValues = some { bytes := some out, err := none }) :
    ∃ m t a i, IsManifestOf lib route lValues out m ∧
      truncate lib (lib.ToLower route.Domain) = some t ∧ route.TLSAcme = some a ∧
      route.Insecure = some i ∧
      (∀ k v, (k, v) ∈ route.Labels → gomap.get? m.ObjectMeta.Labels k = some v) ∧
      (∀ k v, (k, v) ∈ route.Annotations → gomap.get? m.ObjectMeta.Annotations k = some v) ∧
      (∀ k, k ∉ gomap.keys route.Labels →
        gomap.get? m.ObjectMeta.Labels k =
          (gomap.get? (additionalLabels route lValues) k).orElse (fun _ =>
            gomap.get? (defaultLabels t lValues) k)) ∧
      (∀ k, k ∉ gomap.keys route.Annotations →
        gomap.get? m.ObjectMeta.Annotations k =
          (gomap.get? (additionalAnnotations i route lValues) k).orElse (fun _ =>
            gomap.get? (defaultAnnotations a route lValues) k)) := by
  obtain ⟨t, a, i, ht, ha, hi, _, _, _, hm⟩ := rendered_manifest lib route lValues out h
  refine ⟨_, t, a, i, hm, ht, ha, hi, ?_, ?_, ?_, ?_⟩
  · intro k v hkv
    simp only [objectMeta]
    exact gomap.get?_setAll_of_mem _ _ _ _ hL hkv
  · intro k v hkv
    simp only [objectMeta]
    exact gomap.get?_setAll_of_mem _ _ _ _ hA hkv
  · intro k hk
    exact get?_objectMeta_labels_of_not_mem _ _ _ _ _ _ _ hk
  · intro k hk
    exact get?_objectMeta_annotations_of_not_mem _ _ _ _ _ _ _ hk

/-- C15, as amended: for every successfully rendered route, the label
`lagoon.sh/autogenerated` of the manifest is `false`, whatever the route's
`Autogenerated` flag is, unless the route's own `Labels` map sets that key; a
value that the route's `Labels` map gives to the key is the value in the
manifest. -/
theorem manifest_autogenerated_label
    (h : GenerateIngressTemplate lib route lValues = some { bytes := some out, err := none }) :
    ∃ m, IsManifestOf lib route lValues out m ∧
      ("lagoon.sh/autogenerated" ∉ gomap.keys route.Labels →
        gomap.get? m.ObjectMeta.Labels "lagoon.sh/autogenerated" = some "false") ∧
      (∀ v, (gomap.keys route.Labels).Nodup → ("lagoon.sh/autogenerated", v) ∈ route.Labels →
        gomap.get? m.ObjectMeta.Labels "lagoon.sh/autogenerated" = some v) := by
  obtain ⟨t, a, i, _, _, _, _, _, _, hm⟩ := rendered_manifest lib route lValues out h
  refine ⟨_, hm, ?_, ?_⟩
  · intro hk
    rw [get?_objectMeta_labels_of_not_mem _ _ _ _ _ _ _ hk,
      get?_additionalLabels_of_ne _ _ _ (by decide)]
    rfl
  · intro v hnd hv
    simp only [objectMeta]
    exact gomap.get?_setAll_of_mem _ _ _ _ hnd hv

/-- C16: for every successfully rendered route, the services of the build
having pairwise distinct names, the manifest has exactly one TLS entry; its
secret name is `LagoonService` followed by `-tls` for an autogenerated route
and the truncated identifier followed by `-tls` otherwise; its hosts are the
short domain of the service named as the route's `ComposeService` (present
exactly when that service has a non-empty one and the lowercased domain is
longer than 63 bytes), then the lowercased domain, then the alternative names
in order. -/
theorem manifest_tls
    (hS : (lValues.Services.map (fun s => s.Name)).Nodup)
    (h : GenerateIngressTemplate lib route lValues = some { bytes := some out, err := none }) :
    ∃ m t, IsManifestOf lib route lValues out m ∧
      truncate lib (lib.ToLower route.Domain) = some t ∧
      m.Spec.TLS =
        [{ SecretName :=
             if route.Autogenerated = true then route.LagoonService ++ "-tls" else t ++ "-tls"
           Hosts :=
             (match lValues.Services.find? (fun s => s.Name = route.ComposeService) with
              | some s =>
                if s.ShortAutogeneratedRouteDomain ≠ "" ∧ len (lib.ToLower route.Domain) > 63
                then [s.ShortAutogeneratedRouteDomain] else []
              | none => []) ++ [lib.ToLower route.Domain] ++ route.AlternativeNames }] := by
  obtain ⟨t, a, i, ht, _, _, _, _, _, hm⟩ := rendered_manifest lib route lValues out h
  refine ⟨_, t, hm, ht, ?_⟩
  simp only [ingressSpec_eq, shortDomainHosts]
  rw [shortDomainFold_of_nodup _ _ _ _ hS]
  simp

/-- C17: for every successfully rendered route, the backend of every path
of every rule is on the port named by `ServicePortName` (with no number) when a
port name is given, otherwise on the port numbered `ServicePortNumber` (with no
name) when a port number is given, otherwise on the port named `http`. -/
theorem manifest_backend_port
    (h : GenerateIngressTemplate lib route lValues = some { bytes := some out, err := none }) :
    ∃ m, IsManifestOf lib route lValues out m ∧
      ∀ rule ∈ m.Spec.Rules, ∃ http, rule.IngressRuleValue.HTTP = some http ∧
        ∀ path ∈ http.Paths, ∃ service, path.Backend.Service = some service ∧
          service.Port = portByPrecedence route := by
  obtain ⟨t, a, i, _, _, _, _, _, _, hm⟩ := rendered_manifest lib route lValues out h
  refine ⟨_, hm, ?_⟩
  intro rule hrule
  simp only [ingressSpec_eq, List.mem_cons, List.mem_map] at hrule
  have hr : ∃ host, rule = ingressRule host route (servicePort route) := by
    rcases hrule with rfl | ⟨n, _, rfl⟩
    · exact ⟨_, rfl⟩
    · exact ⟨_, rfl⟩
  obtain ⟨host, rfl⟩ := hr
  refine ⟨_, rfl, ?_⟩
  intro path hpath
  simp only [List.mem_singleton] at hpath
  subst hpath
  exact ⟨_, rfl, servicePort_eq route⟩

/-- C18: for every successfully rendered route with n alternative names,
the manifest has n + 1 rules, one for the lowercased domain followed by one for
each alternative name in order; each rule has the single path `/` of type
`Prefix` to the route's `LagoonService` on the resolved port. -/
theorem manifest_rules
    (h : GenerateIngressTemplate lib route lValues = some { bytes := some out, err := none }) :
    ∃ m, IsManifestOf lib route lValues out m ∧
      m.Spec.Rules.length = route.AlternativeNames.length + 1 ∧
      m.Spec.Rules =
        (lib.ToLower route.Domain :: route.AlternativeNames).map (fun host =>
          { Host := host
            IngressRuleValue :=
              { HTTP := some
                  { Paths :=
                      [ { Path := "/"
                          PathType := some "Prefix"
                          Backend :=
                            { Service := some
                                { Name := route.LagoonService
                                  Port := portByPrecedence route } } } ] } } }) := by
  obtain ⟨t, a, i, _, _, _, _, _, _, hm⟩ := rendered_manifest lib route lValues out h
  refine ⟨_, hm, ?_, ?_⟩
  · simp [ingressSpec_eq]
  · simp only [ingressSpec_eq, List.map_cons, ingressRule, servicePort_eq, PathTypePrefix]

end rendered

end routes

namespace routes

open lagoon generator networkv1

theorem mem_of_mem_takeBytes (l : List Char) (n : Nat) (c : Char) (h : c ∈ takeBytes l n) :
    c ∈ l := by
  induction l generalizing n with
  | nil => simp [takeBytes] at h
  | cons a rest ih =>
    simp only [takeBytes] at h
    split at h
    · rcases List.mem_cons.mp h with h | h
      · rw [h]; exact List.mem_cons_self _ _
      · exact List.mem_cons_of_mem _ (ih _ h)
    · simp at h

/-- A string without a dot is its own first field. -/
theorem firstField_of_no_dot (s : String) (h : ∀ c ∈ s.data, c ≠ '.') : firstField s = s := by
  unfold firstField
  have : s.data.takeWhile (fun c => decide (c ≠ '.')) = s.data := by
    rw [List.takeWhile_eq_self_iff]
    intro c hc
    simpa using h c hc
  rw [this]

theorem firstField_no_dot (s : String) : ∀ c ∈ (firstField s).data, c ≠ '.' := by
  intro c hc
  unfold firstField at hc
  simpa using List.mem_takeWhile_imp hc

/-- Cutting a first field leaves a string that is its own first field. -/
theorem firstField_slicePrefix (s p : String) (n : Nat)
    (h : slicePrefix (firstField s) n = some p) : firstField p = p := by
  unfold slicePrefix at h
  split at h
  · simp only [Option.some.injEq] at h
    apply firstField_of_no_dot
    intro c hc
    rw [← h] at hc
    exact firstField_no_dot s c (mem_of_mem_takeBytes _ _ _ hc)
  · simp at h

/-- The truncation of lines 33-41 in cases. -/
theorem truncate_eq_some (lib : Library) (rd t : String) (h : truncate lib rd = some t) :
    (len rd < 53 → t = rd) ∧
    (53 ≤ len rd → ∃ p hash, t = p ++ "-" ++ hash ∧
      slicePrefix (lib.GetMD5HashWithNewLine rd) 5 = some hash ∧
      (lib.IsValidLabelValue (firstField rd) = [] → p = firstField rd) ∧
      (lib.IsValidLabelValue (firstField rd) ≠ [] →
        slicePrefix (firstField rd) 53 = some p)) := by
  simp only [truncate] at h
  constructor
  · intro hlt
    have hn : ¬ len rd ≥ 53 := by omega
    simp only [hn, if_false, Option.some.injEq] at h
    exact h.symm
  · intro hge
    simp only [ge_iff_le, hge, if_true] at h
    by_cases hv : lib.IsValidLabelValue (firstField rd) = []
    · simp only [hv, ne_eq, not_true_eq_false, if_false] at h
      cases hh : slicePrefix (lib.GetMD5HashWithNewLine rd) 5 with
      | none => simp [hh] at h
      | some hash =>
        simp only [hh, Option.some.injEq] at h
        refine ⟨firstField rd, hash, ?_, rfl, fun _ => rfl, fun hne => absurd hv hne⟩
        rw [← h, firstField_of_no_dot _ (firstField_no_dot rd)]
    · simp only [ne_eq, hv, not_false_eq_true, if_true] at h
      cases hc : slicePrefix (firstField rd) 53 with
      | none => simp [hc] at h
      | some p =>
        cases hh : slicePrefix (lib.GetMD5HashWithNewLine rd) 5 with
        | none => simp [hc, hh] at h
        | some hash =>
          simp only [hc, hh, Option.some.injEq] at h
          refine ⟨p, hash, ?_, rfl, fun he => absurd he hv, fun _ => rfl⟩
          rw [← h, firstField_slicePrefix _ _ _ hc]

section identifier

variable (lib : Library) (route : RouteV2) (lValues : BuildValues)

/-- C12: when the truncation of `GenerateIngressTemplate` yields the
identifier `t`, then `t` is the lowercased domain when that domain has fewer
than 53 bytes, and otherwise the first field of the lowercased domain (cut to
its first 53 bytes exactly when it is not a valid label value), a dash, and the
first 5 bytes of the hash of the lowercased domain; `t` is the default value
of the labels `app.kubernetes.io/instance` and `lagoon.sh/service` and, for a
route that is not autogenerated, `t` followed by `-tls` is the secret name; and
a route whose domain has the same lowercasing gets the same identifier. -/
theorem truncated_identifier (t : String)
    (hT : truncate lib (lib.ToLower route.Domain) = some t) :
    (len (lib.ToLower route.Domain) < 53 → t = lib.ToLower route.Domain) ∧
    (53 ≤ len (lib.ToLower route.Domain) → ∃ p hash, t = p ++ "-" ++ hash ∧
      slicePrefix (lib.GetMD5HashWithNewLine (lib.ToLower route.Domain)) 5 = some hash ∧
      (lib.IsValidLabelValue (firstField (lib.ToLower route.Domain)) = [] →
        p = firstField (lib.ToLower route.Domain)) ∧
      (lib.IsValidLabelValue (firstField (lib.ToLower route.Domain)) ≠ [] →
        slicePrefix (firstField (lib.ToLower route.Domain)) 53 = some p)) ∧
    gomap.get? (defaultLabels t lValues) "app.kubernetes.io/instance" = some t ∧
    gomap.get? (defaultLabels t lValues) "lagoon.sh/service" = some t ∧
    (∀ out, GenerateIngressTemplate lib route lValues = some { bytes := some out, err := none } →
      ∃ m, IsManifestOf lib route lValues out m ∧
        ("app.kubernetes.io/instance" ∉ gomap.keys route.Labels →
          gomap.get? m.ObjectMeta.Labels "app.kubernetes.io/instance" = some t) ∧
        ("lagoon.sh/service" ∉ gomap.keys route.Labels →
          gomap.get? m.ObjectMeta.Labels "lagoon.sh/service" = some t) ∧
        (route.Autogenerated = false →
          ∃ hosts, m.Spec.TLS = [{ Hosts := hosts, SecretName := t ++ "-tls" }])) ∧
    (∀ route2 : RouteV2, lib.ToLower route2.Domain = lib.ToLower route.Domain →
      truncate lib (lib.ToLower route2.Domain) = some t) := by
  obtain ⟨h1, h2⟩ := truncate_eq_some lib _ t hT
  refine ⟨h1, h2, ?_, ?_, ?_, ?_⟩
  · simp [defaultLabels, gomap.get?]
  · simp [defaultLabels, gomap.get?]
  · intro out h
    obtain ⟨t2, a, i, ht, _, _, _, _, _, hm⟩ := rendered_manifest lib route lValues out h
    have ht2 : t2 = t := Option.some.inj (ht.symm.trans hT)
    subst ht2
    refine ⟨_, hm, ?_, ?_, ?_⟩
    · intro hk
      rw [get?_objectMeta_labels_of_not_mem _ _ _ _ _ _ _ hk,
        get?_additionalLabels_of_ne _ _ _ (by decide)]
      simp [defaultLabels, gomap.get?]
    · intro hk
      rw [get?_objectMeta_labels_of_not_mem _ _ _ _ _ _ _ hk,
        get?_additionalLabels_of_ne _ _ _ (by decide)]
      simp [defaultLabels, gomap.get?]
    · intro hf
      refine ⟨shortDomainHosts (lib.ToLower route.Domain) route lValues [] ++
        [lib.ToLower route.Domain] ++ route.AlternativeNames, ?_⟩
      simp only [ingressSpec_eq, hf, Bool.false_eq_true, if_false]
  · intro route2 h2
    rw [h2]
    exact hT

end identifier

end routes

namespace routes

open lagoon generator networkv1

/-- The hosts that the loop of lines 188-194 adds are short domains of
services of the build. -/
theorem shortDomainHosts_eq (routeDomain : String) (route : RouteV2) (lValues : BuildValues)
    (hosts : List String) :
    ∃ shorts, shortDomainHosts routeDomain route lValues hosts = hosts ++ shorts ∧
      ∀ x ∈ shorts, ∃ s ∈ lValues.Services, x = s.ShortAutogeneratedRouteDomain := by
  unfold shortDomainHosts
  generalize lValues.Services = services
  induction services generalizing hosts with
  | nil => exact ⟨[], by simp, by simp⟩
  | cons s rest ih =>
    rw [List.foldl_cons]
    split
    · split
      · obtain ⟨shorts, he, hs⟩ := ih (hosts ++ [s.ShortAutogeneratedRouteDomain])
        refine ⟨s.ShortAutogeneratedRouteDomain :: shorts, by simp [he], ?_⟩
        intro x hx
        rcases List.mem_cons.mp hx with rfl | hx
        · exact ⟨s, List.mem_cons_self _ _, rfl⟩
        · obtain ⟨s2, hs2, rfl⟩ := hs x hx
          exact ⟨s2, List.mem_cons_of_mem _ hs2, rfl⟩
      · obtain ⟨shorts, he, hs⟩ := ih hosts
        refine ⟨shorts, he, fun x hx => ?_⟩
        obtain ⟨s2, hs2, rfl⟩ := hs x hx
        exact ⟨s2, List.mem_cons_of_mem _ hs2, rfl⟩
    · obtain ⟨shorts, he, hs⟩ := ih hosts
      refine ⟨shorts, he, fun x hx => ?_⟩
      obtain ⟨s2, hs2, rfl⟩ := hs x hx
      exact ⟨s2, List.mem_cons_of_mem _ hs2, rfl⟩

section errors

variable (lib : Library) (route : RouteV2) (lValues : BuildValues)

/-- C11: for a route with `TLSAcme` and `Insecure` set, lower-casing being
idempotent on the domain, the truncation of a valid domain yielding `t` and the
serializer never failing, `GenerateIngressTemplate` returns an error exactly
when the lowercased domain is not a valid DNS-1123 subdomain, or the final
annotations fail their validation, or the final labels fail theirs; it
returns no bytes with an error; and it returns bytes whenever the three
validations pass, whether or not the domain as written is valid. -/
theorem render_error_iff (a : Bool) (i t : String)
    (hTLS : route.TLSAcme = some a) (hIns : route.Insecure = some i)
    (hLower : lib.ToLower (lib.ToLower route.Domain) = lib.ToLower route.Domain)
    (hTrunc : lib.IsDNS1123Subdomain (lib.ToLower route.Domain) = [] →
      truncate lib (lib.ToLower route.Domain) = some t)
    (hMarshal : ∀ m, ∃ b, lib.Marshal m = .ok b) :
    ((∃ r e, GenerateIngressTemplate lib route lValues = some r ∧ r.err = some e) ↔
      (lib.IsDNS1123Subdomain (lib.ToLower route.Domain) ≠ [] ∨
       lib.ValidateAnnotations
         (objectMeta (lib.ToLower route.Domain) t a i route lValues).Annotations ≠ [] ∨
       lib.ValidateLabels
         (objectMeta (lib.ToLower route.Domain) t a i route lValues).Labels ≠ [])) ∧
    (∀ r e, GenerateIngressTemplate lib route lValues = some r → r.err = some e →
      r.bytes = none) ∧
    (lib.IsDNS1123Subdomain (lib.ToLower route.Domain) = [] →
      lib.ValidateAnnotations
        (objectMeta (lib.ToLower route.Domain) t a i route lValues).Annotations = [] →
      lib.ValidateLabels
        (objectMeta (lib.ToLower route.Domain) t a i route lValues).Labels = [] →
      ∃ out, GenerateIngressTemplate lib route lValues
        = some { bytes := some out, err := none }) := by
  by_cases hd : lib.IsDNS1123Subdomain (lib.ToLower route.Domain) = []
  · have ht := hTrunc hd
    by_cases hva : lib.ValidateAnnotations
        (objectMeta (lib.ToLower route.Domain) t a i route lValues).Annotations = []
    · by_cases hvl : lib.ValidateLabels
          (objectMeta (lib.ToLower route.Domain) t a i route lValues).Labels = []
      · obtain ⟨b, hb⟩ := hMarshal
          { TypeMeta := { Kind := "Ingress", APIVersion := "networking.k8s.io/v1" }
            ObjectMeta := objectMeta (lib.ToLower route.Domain) t a i route lValues
            Spec := ingressSpec (lib.ToLower route.Domain) t route lValues }
        have hg : GenerateIngressTemplate lib route lValues =
            some { bytes := some ("---\n" ++ b), err := none } := by
          simp [GenerateIngressTemplate, hLower, hd, ht, hTLS, hIns, hva, hvl, hb]
        refine ⟨?_, ?_, ?_⟩
        · simp [hg, hd, hva, hvl]
        · intro r e hr he
          rw [hg] at hr
          cases hr
          simp at he
        · intro _ _ _
          exact ⟨_, hg⟩
      · have hg : GenerateIngressTemplate lib route lValues =
            some { bytes := none
                   err := some ("the labels for " ++ lib.ToLower route.Domain ++
                     " are not valid: " ++ fmtV (lib.ValidateLabels
                       (objectMeta (lib.ToLower route.Domain) t a i route lValues).Labels)) } := by
          simp [GenerateIngressTemplate, hLower, hd, ht, hTLS, hIns, hva, hvl]
        refine ⟨?_, ?_, ?_⟩
        · simp [hg, hvl]
        · intro r e hr _
          rw [hg] at hr
          cases hr
          rfl
        · intro _ _ h3
          exact absurd h3 hvl
    · have hg : GenerateIngressTemplate lib route lValues =
          some { bytes := none
                 err := some ("the annotations for " ++ lib.ToLower route.Domain ++
                   " are not valid: " ++ fmtV (lib.ValidateAnnotations
                     (objectMeta (lib.ToLower route.Domain) t a i route lValues).Annotations)) } := by
        simp [GenerateIngressTemplate, hLower, hd, ht, hTLS, hIns, hva]
      refine ⟨?_, ?_, ?_⟩
      · simp [hg, hva]
      · intro r e hr _
        rw [hg] at hr
        cases hr
        rfl
      · intro _ h2 _
        exact absurd h2 hva
  · have hg : GenerateIngressTemplate lib route lValues =
        some { bytes := none
               err := some ("the provided domain name " ++ route.Domain ++ " is not valid: " ++
                 fmtV (lib.IsDNS1123Subdomain (lib.ToLower route.Domain))) } := by
      simp [GenerateIngressTemplate, hLower, hd]
    refine ⟨?_, ?_, ?_⟩
    · simp [hg, hd]
    · intro r e hr _
      rw [hg] at hr
      cases hr
      rfl
    · intro h1 _ _
      exact absurd h1 hd

end errors

section hosts

variable (lib : Library) (route : RouteV2) (lValues : BuildValues) (out : String)

/-- C19, as amended: for every route that `GenerateIngressTemplate` renders
successfully, lower-casing being idempotent on the domain, the host of the
first rule is the lowercased domain, which is a valid DNS-1123 subdomain; the
hosts of the other rules are the alternative names as the route gives them;
the hosts of the TLS entry are short domains of services of the build as the
build gives them, then the lowercased domain, then the alternative names as
the route gives them. -/
theorem manifest_hosts
    (hLower : lib.ToLower (lib.ToLower route.Domain) = lib.ToLower route.Domain)
    (h : GenerateIngressTemplate lib route lValues = some { bytes := some out, err := none }) :
    ∃ m, IsManifestOf lib route lValues out m ∧
      ruleHosts m = lib.ToLower route.Domain :: route.AlternativeNames ∧
      lib.IsDNS1123Subdomain (lib.ToLower route.Domain) = [] ∧
      ∃ shorts,
        m.Spec.TLS.map (fun e => e.Hosts) =
          [shorts ++ lib.ToLower route.Domain :: route.AlternativeNames] ∧
        ∀ x ∈ shorts, ∃ s ∈ lValues.Services, x = s.ShortAutogeneratedRouteDomain := by
  obtain ⟨t, a, i, _, _, _, hd, _, _, hm⟩ := rendered_manifest lib route lValues out h
  rw [hLower] at hd
  obtain ⟨shorts, he, hs⟩ := shortDomainHosts_eq (lib.ToLower route.Domain) route lValues []
  refine ⟨_, hm, ?_, hd, shorts, ?_, hs⟩
  · simp [ruleHosts, ingressSpec_eq, ingressRule, Function.comp_def]
  · simp [ingressSpec_eq, he]

end hosts

end routes

/-! ## Renderings of concrete routes -/

namespace routes

open lagoon generator networkv1

theorem render_mixed_case :
    GenerateIngressTemplate fixtureLibrary mixedCaseRoute (fixtureValues []) =
      some { bytes := some "---\nmetadata:\n  name: example.com\n", err := none } := by
  decide

theorem render_labelled :
    GenerateIngressTemplate fixtureLibrary labelledRoute (fixtureValues []) =
      some { bytes := some "---\nmetadata:\n  name: nginx\n", err := none } := by
  decide

theorem render_long :
    GenerateIngressTemplate fixtureLibrary (fixtureRoute longDomain [] [] false)
      valuesWithShortDomain =
      some { bytes := some ("---\nmetadata:\n  name: " ++ longDomain ++ "\n"), err := none } := by
  decide

theorem render_autogenerated :
    GenerateIngressTemplate fixtureLibrary autogeneratedRoute (fixtureValues []) =
      some { bytes := some "---\nmetadata:\n  name: nginx\n", err := none } := by
  decide

/-- Witness of C11: the domain `Example.COM` is not a valid DNS-1123
subdomain as written, its lowercasing is, and the route is rendered. -/
theorem render_error_iff_witness :
    validation.IsDNS1123Subdomain "Example.COM" ≠ [] ∧
    ∃ out, GenerateIngressTemplate fixtureLibrary mixedCaseRoute (fixtureValues [])
      = some { bytes := some out, err := none } :=
  ⟨by decide,
   (render_error_iff fixtureLibrary mixedCaseRoute (fixtureValues []) true "Redirect"
     "example.com" rfl rfl (by decide) (fun _ => by decide) (fun _ => ⟨_, rfl⟩)).2.2
     (by decide) (by decide) (by decide)⟩

/-- Witness of C12: the identifier of a domain of 66 bytes. -/
theorem truncated_identifier_witness :
    truncate fixtureLibrary (fixtureLibrary.ToLower longDomain)
      = some "a-long-first-label-of-forty-characters-x-01234" ∧
    gomap.get? (defaultLabels "a-long-first-label-of-forty-characters-x-01234"
      valuesWithShortDomain) "lagoon.sh/service"
      = some "a-long-first-label-of-forty-characters-x-01234" :=
  ⟨by decide,
   (truncated_identifier fixtureLibrary (fixtureRoute longDomain [] [] false)
     valuesWithShortDomain "a-long-first-label-of-forty-characters-x-01234"
     (by decide)).2.2.2.1⟩

/-- Witness of C13: the route `Example.COM`, not autogenerated. -/
theorem manifest_name_witness :
    ∃ m, IsManifestOf fixtureLibrary mixedCaseRoute (fixtureValues [])
        "---\nmetadata:\n  name: example.com\n" m ∧
      m.ObjectMeta.Name = "example.com" :=
  (manifest_name fixtureLibrary mixedCaseRoute (fixtureValues []) _ render_mixed_case).elim
    (fun m hm => ⟨m, hm.1, hm.2.1 rfl⟩)

/-- Witness of C14: the route that sets the label
`lagoon.sh/autogenerated`. -/
theorem manifest_route_maps_win_witness :
    ∃ m, IsManifestOf fixtureLibrary labelledRoute (fixtureValues [])
        "---\nmetadata:\n  name: nginx\n" m ∧
      gomap.get? m.ObjectMeta.Labels "lagoon.sh/autogenerated" = some "true" :=
  (manifest_route_maps_win fixtureLibrary labelledRoute (fixtureValues []) _ (by decide)
    (by decide) render_labelled).elim
    (fun m hm => hm.elim fun _ hm => hm.elim fun _ hm => hm.elim fun _ hm =>
      ⟨m, hm.1, hm.2.2.2.2.1 _ _ (by decide)⟩)

/-- Counterexample to C15: an autogenerated route whose own labels set
`lagoon.sh/autogenerated` to `true` is rendered, and the label of the manifest
is `true`. -/
theorem manifest_autogenerated_label_true :
    GenerateIngressTemplate fixtureLibrary labelledRoute (fixtureValues []) =
      some { bytes := some "---\nmetadata:\n  name: nginx\n", err := none } ∧
    labelledRoute.Autogenerated = true ∧
    (manifest fixtureLibrary labelledRoute (fixtureValues [])).map
      (fun m => gomap.get? m.ObjectMeta.Labels "lagoon.sh/autogenerated")
      = some (some "true") := by
  decide

/-- Witness of C15, as amended: an autogenerated route whose own labels
do not set the key. -/
theorem manifest_autogenerated_label_witness :
    autogeneratedRoute.Autogenerated = true ∧
    ∃ m, IsManifestOf fixtureLibrary autogeneratedRoute (fixtureValues [])
        "---\nmetadata:\n  name: nginx\n" m ∧
      gomap.get? m.ObjectMeta.Labels "lagoon.sh/autogenerated" = some "false" :=
  ⟨rfl,
   (manifest_autogenerated_label fixtureLibrary autogeneratedRoute (fixtureValues []) _
     render_autogenerated).elim (fun m hm => ⟨m, hm.1, hm.2.1 (by decide)⟩)⟩

/-- Witness of C16: a domain of 66 bytes and the service `nginx` with a
short domain. -/
theorem manifest_tls_witness :
    ∃ m, IsManifestOf fixtureLibrary (fixtureRoute longDomain [] [] false)
        valuesWithShortDomain ("---\nmetadata:\n  name: " ++ longDomain ++ "\n") m ∧
      m.Spec.TLS =
        [{ SecretName := "a-long-first-label-of-forty-characters-x-01234-tls"
           Hosts := ["short.example.com", longDomain] }] :=
  (manifest_tls fixtureLibrary (fixtureRoute longDomain [] [] false) valuesWithShortDomain _
    (by decide) render_long).elim
    (fun m hm => hm.elim fun t hm => ⟨m, hm.1, by
      have ht : t = "a-long-first-label-of-forty-characters-x-01234" :=
        Option.some.inj (hm.2.1.symm.trans (by decide))
      rw [hm.2.2, ht]
      decide⟩)

/-- Witness of C17: the route `Example.COM`, which names no port. -/
theorem manifest_backend_port_witness :
    ∃ m, IsManifestOf fixtureLibrary mixedCaseRoute (fixtureValues [])
        "---\nmetadata:\n  name: example.com\n" m ∧
      ∀ rule ∈ m.Spec.Rules, ∃ http, rule.IngressRuleValue.HTTP = some http ∧
        ∀ path ∈ http.Paths, ∃ service, path.Backend.Service = some service ∧
          service.Port = { Name := "http", Number := 0 } :=
  manifest_backend_port fixtureLibrary mixedCaseRoute (fixtureValues []) _ render_mixed_case

/-- Witness of C18: the route `Example.COM` with one alternative name. -/
theorem manifest_rules_witness :
    ∃ m, IsManifestOf fixtureLibrary mixedCaseRoute (fixtureValues [])
        "---\nmetadata:\n  name: example.com\n" m ∧
      m.Spec.Rules.length = 2 :=
  (manifest_rules fixtureLibrary mixedCaseRoute (fixtureValues []) _ render_mixed_case).elim
    (fun m hm => ⟨m, hm.1, hm.2.1⟩)

/-- Counterexample to C19: the route `example.com` written `Example.COM`
with the alternative name `ALT.example.com` is rendered, and the second rule of
the manifest has the host `ALT.example.com`, which is neither lowercase nor a
valid DNS-1123 subdomain. -/
theorem manifest_host_not_lowercase :
    GenerateIngressTemplate fixtureLibrary mixedCaseRoute (fixtureValues []) =
      some { bytes := some "---\nmetadata:\n  name: example.com\n", err := none } ∧
    (manifest fixtureLibrary mixedCaseRoute (fixtureValues [])).map ruleHosts
      = some ["example.com", "ALT.example.com"] ∧
    fixtureLibrary.ToLower "ALT.example.com" ≠ "ALT.example.com" ∧
    fixtureLibrary.IsDNS1123Subdomain "ALT.example.com" ≠ [] := by
  decide

/-- Witness of C19, as amended: the same route. -/
theorem manifest_hosts_witness :
    ∃ m, IsManifestOf fixtureLibrary mixedCaseRoute (fixtureValues [])
        "---\nmetadata:\n  name: example.com\n" m ∧
      ruleHosts m = ["example.com", "ALT.example.com"] :=
  (manifest_hosts fixtureLibrary mixedCaseRoute (fixtureValues []) _ (by decide)
    render_mixed_case).elim (fun m hm => ⟨m, hm.1, hm.2.1⟩)

end routes

/-! ## The remainder of routes without alternative names -/

namespace cmd

open lagoon

/-- The loop of lines 90-95 on routes without alternative names. -/
theorem replaceLoop_no_alternatives (autogen : List String) (rest : List RouteV2)
    (rem0 : List String) (h : ∀ r ∈ rest, r.AlternativeNames = []) :
    rest.foldl (fun rem ri =>
      assignAlternativeNames autogen (rem ++ [sprintf ri.Domain]) ri.AlternativeNames) rem0 =
    rem0 ++ rest.map (fun r => sprintf r.Domain) := by
  induction rest generalizing rem0 with
  | nil => simp
  | cons r t ih =>
    rw [List.foldl_cons, h r (List.mem_cons_self _ _), assignAlternativeNames_nil,
      ih _ (fun x hx => h x (List.mem_cons_of_mem _ hx))]
    simp

/-- The block of lines 85-100 on a non-empty list of routes without
alternative names. -/
theorem replaceBlock_cons_no_alternatives (r0 : RouteV2) (rest : List RouteV2) (s : Locals)
    (h : ∀ r ∈ r0 :: rest, r.AlternativeNames = []) :
    replaceBlock (r0 :: rest) s =
    { primary := sprintf r0.Domain
      remainders := (if s.primary ≠ "" then s.remainders ++ [s.primary] else s.remainders) ++
        rest.map (fun r => sprintf r.Domain)
      autogen := s.autogen } := by
  simp only [replaceBlock]
  rw [h r0 (List.mem_cons_self _ _), assignAlternativeNames_nil,
    replaceLoop_no_alternatives _ _ _ (fun x hx => h x (List.mem_cons_of_mem _ hx))]

/-- The three blocks in sequence on routes without alternative names. -/
theorem blocks_no_alternatives (au ex as : List RouteV2)
    (hex : ∀ r ∈ ex, r.AlternativeNames = []) (has : ∀ r ∈ as, r.AlternativeNames = []) :
    (replaceBlock as (replaceBlock ex
      (autogenBlock au { primary := "", remainders := [], autogen := [] }))).remainders =
    au.tail.map (fun r => sprintf r.Domain) ++
    (if ex ≠ [] then (au.take 1).map (fun r => sprintf r.Domain) else []) ++
    ex.tail.map (fun r => sprintf r.Domain) ++
    (if as ≠ [] then
      ((if ex ≠ [] then ex else au).take 1).map (fun r => sprintf r.Domain) ++
        as.tail.map (fun r => sprintf r.Domain)
     else []) := by
  cases au with
  | nil =>
    cases ex with
    | nil =>
      cases as with
      | nil => simp [autogenBlock_nil, replaceBlock_nil]
      | cons s0 st =>
        rw [replaceBlock_nil, autogenBlock_nil, replaceBlock_cons_no_alternatives _ _ _ has]
        simp
    | cons e0 et =>
      cases as with
      | nil =>
        rw [replaceBlock_nil, autogenBlock_nil, replaceBlock_cons_no_alternatives _ _ _ hex]
        simp
      | cons s0 st =>
        rw [autogenBlock_nil, replaceBlock_cons_no_alternatives _ _ _ hex,
          replaceBlock_cons_no_alternatives _ _ _ has]
        simp [sprintf_ne_empty]
  | cons a0 at_ =>
    cases ex with
    | nil =>
      cases as with
      | nil => simp [autogenBlock_cons, replaceBlock_nil]
      | cons s0 st =>
        rw [replaceBlock_nil, autogenBlock_cons, replaceBlock_cons_no_alternatives _ _ _ has]
        simp [sprintf_ne_empty]
    | cons e0 et =>
      cases as with
      | nil =>
        rw [replaceBlock_nil, autogenBlock_cons, replaceBlock_cons_no_alternatives _ _ _ hex]
        simp [sprintf_ne_empty]
      | cons s0 st =>
        rw [autogenBlock_cons, replaceBlock_cons_no_alternatives _ _ _ hex,
          replaceBlock_cons_no_alternatives _ _ _ has]
        simp [sprintf_ne_empty]

section ordered

variable {EnvironmentVariable BuildValues Route : Type}
  (c : Collaborators EnvironmentVariable BuildValues Route)
  (lagoonEnvVars : List EnvironmentVariable) (lagoonValues : BuildValues)
  (lYAML : YAML Route) (autogenRoutes mainRoutes activeStanbyRoutes : RoutesV2)
  (activeEnv standbyEnv debug : Bool)

/-- C25: when `generateRoutes` succeeds and no explicit route and no
active-standby route taken into account has alternative names (those of the
autogenerated routes never reach the remainder), the remainder is, in this
order: the URLs of the domains of the autogenerated routes after the first; the
autogenerated primary if an explicit route exists; the URLs of the domains of
the explicit routes after the first; and, when the environment is active or
standby and has active-standby routes, the primary computed so far followed by
the URLs of the domains of the active-standby routes after the first. -/
theorem generateRoutes_remainders_in_order
    (hok : (generateRoutes c lagoonEnvVars lagoonValues lYAML autogenRoutes mainRoutes
      activeStanbyRoutes activeEnv standbyEnv debug).err = none)
    (hex : ∀ r ∈ (ingressCall c lagoonEnvVars lagoonValues lYAML autogenRoutes mainRoutes
      debug).mainRoutes.Routes, r.AlternativeNames = [])
    (has : (activeEnv || standbyEnv) = true →
      ∀ r ∈ (activeStandbyCall c lagoonEnvVars lagoonValues lYAML autogenRoutes activeEnv
        standbyEnv).Routes, r.AlternativeNames = []) :
    (generateRoutes c lagoonEnvVars lagoonValues lYAML autogenRoutes mainRoutes
      activeStanbyRoutes activeEnv standbyEnv debug).remainders =
    remaindersInOrder (activeEnv || standbyEnv)
      (activeStandbyCall c lagoonEnvVars lagoonValues lYAML autogenRoutes activeEnv
        standbyEnv).Routes
      (ingressCall c lagoonEnvVars lagoonValues lYAML autogenRoutes mainRoutes
        debug).mainRoutes.Routes
      (autogenCall c lagoonEnvVars lagoonValues lYAML autogenRoutes).autogenRoutes.Routes := by
  have h := congrArg Locals.remainders (generateRoutes_locals_of_ok c lagoonEnvVars
    lagoonValues lYAML autogenRoutes mainRoutes activeStanbyRoutes activeEnv standbyEnv debug
    hok)
  simp only at h
  rw [h]
  unfold remaindersInOrder
  by_cases hf : (activeEnv || standbyEnv) = true
  · rw [blocks_no_alternatives _ _ _ hex (by simpa [hf] using has hf)]
    simp only [hf, if_true, true_and]
  · rw [blocks_no_alternatives _ _ _ hex (by simp [hf])]
    simp [hf]

end ordered

/-- Witness of C25: two routes of each source, none with alternative
names, in an active environment. -/
theorem generateRoutes_remainders_in_order_witness :
    (runOn [routeOf "a.example.com" [], routeOf "b.example.com" []]
      [routeOf "e.example.com" [], routeOf "f.example.com" []]
      [routeOf "s.example.com" [], routeOf "t.example.com" []] true false).remainders =
    ["https://b.example.com", "https://a.example.com", "https://f.example.com",
     "https://e.example.com", "https://t.example.com"] :=
  (generateRoutes_remainders_in_order
    (collaboratorsOf [routeOf "a.example.com" [], routeOf "b.example.com" []]
      [routeOf "e.example.com" [], routeOf "f.example.com" []]
      [routeOf "s.example.com" [], routeOf "t.example.com" []]) [] () emptyYAML ⟨[]⟩ ⟨[]⟩ ⟨[]⟩
    true false false (by decide) (by decide) (fun _ => by decide)).trans (by decide)

end cmd

/-! ## The annotations of the blocks -/

namespace routes

open lagoon generator networkv1

theorem get?_default_annotations_of_ne (a : Bool) (route : RouteV2) (lValues : BuildValues)
    (k : String) (h1 : k ≠ "kubernetes.io/tls-acme") (h2 : k ≠ "fastly.amazee.io/watch")
    (h3 : k ≠ "lagoon.sh/version") :
    gomap.get? (defaultAnnotations a route lValues) k = none := by
  have e1 : ¬ "kubernetes.io/tls-acme" = k := fun e => h1 e.symm
  have e2 : ¬ "fastly.amazee.io/watch" = k := fun e => h2 e.symm
  have e3 : ¬ "lagoon.sh/version" = k := fun e => h3 e.symm
  simp [defaultAnnotations, gomap.get?, e1, e2, e3]

theorem get?_ingressClassAnnotations_of_ne (route : RouteV2) (m : List (String × String))
    (k : String) (h : k ≠ "acme.cert-manager.io/http01-ingress-class") :
    gomap.get? (ingressClassAnnotations route m) k = gomap.get? m k := by
  unfold ingressClassAnnotations
  split
  · rw [gomap.get?_set, if_neg h]
  · rfl

theorem get?_robotsAnnotations_of_ne (route : RouteV2) (lValues : BuildValues)
    (m : List (String × String)) (k : String)
    (h : k ≠ "nginx.ingress.kubernetes.io/server-snippet") :
    gomap.get? (robotsAnnotations route lValues m) k = gomap.get? m k := by
  unfold robotsAnnotations
  split
  · rw [gomap.get?_set, if_neg h]
  · rfl

theorem get?_insecureAnnotations_of_ne (insecure : String) (m : List (String × String))
    (k : String) (h1 : k ≠ "nginx.ingress.kubernetes.io/ssl-redirect")
    (h2 : k ≠ "ingress.kubernetes.io/ssl-redirect") :
    gomap.get? (insecureAnnotations insecure m) k = gomap.get? m k := by
  unfold insecureAnnotations
  split_ifs <;> simp [gomap.get?_set, h1, h2]

theorem get?_buildAnnotations_of_ne (lValues : BuildValues) (m : List (String × String))
    (k : String) (h1 : k ≠ "lagoon.sh/branch") (h2 : k ≠ "lagoon.sh/prNumber")
    (h3 : k ≠ "lagoon.sh/prHeadBranch") (h4 : k ≠ "lagoon.sh/prBaseBranch") :
    gomap.get? (buildAnnotations lValues m) k = gomap.get? m k := by
  unfold buildAnnotations
  split_ifs <;> simp [gomap.get?_set, h1, h2, h3, h4]

theorem get?_fastlyAnnotations_of_ne (route : RouteV2) (m : List (String × String))
    (k : String) (h1 : k ≠ "fastly.amazee.io/service-id")
    (h2 : k ≠ "fastly.amazee.io/api-secret-name") :
    gomap.get? (fastlyAnnotations route m) k = gomap.get? m k := by
  unfold fastlyAnnotations
  split_ifs <;> simp [gomap.get?_set, h1, h2]

theorem get?_monitoringAnnotations_of_ne (route : RouteV2) (lValues : BuildValues)
    (m : List (String × String)) (k : String)
    (h1 : k ≠ "monitor.stakater.com/enabled")
    (h2 : k ≠ "uptimerobot.monitor.stakater.com/alert-contacts")
    (h3 : k ≠ "uptimerobot.monitor.stakater.com/status-pages")
    (h4 : k ≠ "uptimerobot.monitor.stakater.com/interval")
    (h5 : k ≠ "monitor.stakater.com/overridePath") :
    gomap.get? (monitoringAnnotations route lValues m) k = gomap.get? m k := by
  unfold monitoringAnnotations
  split_ifs <;> simp [gomap.get?_set, h1, h2, h3, h4, h5]

/-- The two SSL-redirect annotations among the additional annotations. -/
theorem get?_additionalAnnotations_ssl_redirect (insecure : String) (route : RouteV2)
    (lValues : BuildValues) (k : String)
    (hk : k = "nginx.ingress.kubernetes.io/ssl-redirect" ∨
      k = "ingress.kubernetes.io/ssl-redirect") :
    gomap.get? (additionalAnnotations insecure route lValues) k =
      if insecure = "Allow" then some "false"
      else if insecure = "Redirect" ∨ insecure = "None" then some "true"
      else none := by
  have hbase : gomap.get? (buildAnnotations lValues
      (fastlyAnnotations route (monitoringAnnotations route lValues []))) k = none := by
    rcases hk with rfl | rfl
    · rw [get?_buildAnnotations_of_ne _ _ _ (by decide) (by decide) (by decide) (by decide),
        get?_fastlyAnnotations_of_ne _ _ _ (by decide) (by decide),
        get?_monitoringAnnotations_of_ne _ _ _ _ (by decide) (by decide) (by decide)
          (by decide) (by decide)]
      rfl
    · rw [get?_buildAnnotations_of_ne _ _ _ (by decide) (by decide) (by decide) (by decide),
        get?_fastlyAnnotations_of_ne _ _ _ (by decide) (by decide),
        get?_monitoringAnnotations_of_ne _ _ _ _ (by decide) (by decide) (by decide)
          (by decide) (by decide)]
      rfl
  unfold additionalAnnotations
  simp only
  rcases hk with rfl | rfl
  · rw [get?_ingressClassAnnotations_of_ne _ _ _ (by decide),
      get?_robotsAnnotations_of_ne _ _ _ _ (by decide)]
    unfold insecureAnnotations
    split_ifs <;> simp [gomap.get?_set, hbase]
  · rw [get?_ingressClassAnnotations_of_ne _ _ _ (by decide),
      get?_robotsAnnotations_of_ne _ _ _ _ (by decide)]
    unfold insecureAnnotations
    split_ifs <;> simp [gomap.get?_set, hbase]

/-- The monitoring annotations among the additional annotations are those
of the monitoring block. -/
theorem get?_additionalAnnotations_monitoring (insecure : String) (route : RouteV2)
    (lValues : BuildValues) (k : String)
    (hk : k = "monitor.stakater.com/enabled" ∨
      k = "uptimerobot.monitor.stakater.com/alert-contacts" ∨
      k = "uptimerobot.monitor.stakater.com/status-pages" ∨
      k = "uptimerobot.monitor.stakater.com/interval") :
    gomap.get? (additionalAnnotations insecure route lValues) k =
      gomap.get? (monitoringAnnotations route lValues []) k := by
  unfold additionalAnnotations
  simp only
  rcases hk with rfl | rfl | rfl | rfl <;>
    rw [get?_ingressClassAnnotations_of_ne _ _ _ (by decide),
      get?_robotsAnnotations_of_ne _ _ _ _ (by decide),
      get?_insecureAnnotations_of_ne _ _ _ (by decide) (by decide),
      get?_buildAnnotations_of_ne _ _ _ (by decide) (by decide) (by decide) (by decide),
      get?_fastlyAnnotations_of_ne _ _ _ (by decide) (by decide)]

end routes

namespace routes

open lagoon generator networkv1

/-- The monitoring block on the empty map, key by key. -/
theorem get?_monitoringAnnotations_nil (route : RouteV2) (lValues : BuildValues) :
    (gomap.get? (monitoringAnnotations route lValues []) "monitor.stakater.com/enabled" =
      if lValues.EnvironmentType = "production" then
        (if lValues.Monitoring.Enabled = true ∧ ¬ route.Autogenerated = true then some "true"
         else some "false")
      else none) ∧
    (gomap.get? (monitoringAnnotations route lValues [])
        "uptimerobot.monitor.stakater.com/interval" =
      if lValues.EnvironmentType = "production" ∧ lValues.Monitoring.Enabled = true ∧
          ¬ route.Autogenerated = true then some "60" else none) ∧
    (gomap.get? (monitoringAnnotations route lValues [])
        "uptimerobot.monitor.stakater.com/alert-contacts" =
      if lValues.EnvironmentType = "production" ∧ lValues.Monitoring.Enabled = true ∧
          ¬ route.Autogenerated = true then
        (if lValues.Monitoring.AlertContact ≠ "" then some lValues.Monitoring.AlertContact
         else some "unconfigured")
      else none) ∧
    (gomap.get? (monitoringAnnotations route lValues [])
        "uptimerobot.monitor.stakater.com/status-pages" =
      if lValues.EnvironmentType = "production" ∧ lValues.Monitoring.Enabled = true ∧
          ¬ route.Autogenerated = true then
        (if lValues.Monitoring.StatusPageID ≠ "" then some lValues.Monitoring.StatusPageID
         else none)
      else none) := by
  unfold monitoringAnnotations
  refine ⟨?_, ?_, ?_, ?_⟩ <;> split_ifs <;> simp_all [gomap.get?_set, gomap.get?]

section conditionals

variable (lib : Library) (route : RouteV2) (lValues : BuildValues) (out : String)

/-- C21: for every successfully rendered route whose own annotations set
neither of them, the annotations `nginx.ingress.kubernetes.io/ssl-redirect` and
`ingress.kubernetes.io/ssl-redirect` are both `false` when the route's insecure
policy is `Allow`, both `true` when it is `Redirect` or `None`, and both
absent for any other policy. -/
theorem manifest_ssl_redirect
    (hk1 : "nginx.ingress.kubernetes.io/ssl-redirect" ∉ gomap.keys route.Annotations)
    (hk2 : "ingress.kubernetes.io/ssl-redirect" ∉ gomap.keys route.Annotations)
    (h : GenerateIngressTemplate lib route lValues = some { bytes := some out, err := none }) :
    ∃ m i, IsManifestOf lib route lValues out m ∧ route.Insecure = some i ∧
      (i = "Allow" →
        gomap.get? m.ObjectMeta.Annotations "nginx.ingress.kubernetes.io/ssl-redirect"
          = some "false" ∧
        gomap.get? m.ObjectMeta.Annotations "ingress.kubernetes.io/ssl-redirect"
          = some "false") ∧
      (i = "Redirect" ∨ i = "None" →
        gomap.get? m.ObjectMeta.Annotations "nginx.ingress.kubernetes.io/ssl-redirect"
          = some "true" ∧
        gomap.get? m.ObjectMeta.Annotations "ingress.kubernetes.io/ssl-redirect"
          = some "true") ∧
      (i ≠ "Allow" → i ≠ "Redirect" → i ≠ "None" →
        gomap.get? m.ObjectMeta.Annotations "nginx.ingress.kubernetes.io/ssl-redirect"
          = none ∧
        gomap.get? m.ObjectMeta.Annotations "ingress.kubernetes.io/ssl-redirect" = none) := by
  obtain ⟨t, a, i, _, _, hi, _, _, _, hm⟩ := rendered_manifest lib route lValues out h
  have e1 := get?_objectMeta_annotations_of_not_mem (lib.ToLower route.Domain) t a i route
    lValues _ hk1
  have e2 := get?_objectMeta_annotations_of_not_mem (lib.ToLower route.Domain) t a i route
    lValues _ hk2
  rw [get?_additionalAnnotations_ssl_redirect _ _ _ _ (Or.inl rfl),
    get?_default_annotations_of_ne _ _ _ _ (by decide) (by decide) (by decide)] at e1
  rw [get?_additionalAnnotations_ssl_redirect _ _ _ _ (Or.inr rfl),
    get?_default_annotations_of_ne _ _ _ _ (by decide) (by decide) (by decide)] at e2
  refine ⟨_, i, hm, hi, ?_, ?_, ?_⟩
  · intro hA
    rw [e1, e2]
    simp [hA]
  · intro hR
    have hnA : ¬ i = "Allow" := by
      rcases hR with rfl | rfl <;> decide
    rw [e1, e2]
    simp [hnA, hR]
  · intro h1 h2 h3
    rw [e1, e2]
    simp [h1, h2, h3]

/-- C22: for every successfully rendered route whose own annotations do
not set the monitoring keys, the annotation `monitor.stakater.com/enabled` is
`true` exactly when the environment type is `production`, monitoring is enabled
and the route is not autogenerated; in that case the interval is `60` and the
alert contact is `Monitoring.AlertContact`, or `unconfigured` when that is
empty; in every other case none of the `uptimerobot` annotations is present. -/
theorem manifest_monitoring
    (hk1 : "monitor.stakater.com/enabled" ∉ gomap.keys route.Annotations)
    (hk2 : "uptimerobot.monitor.stakater.com/alert-contacts" ∉ gomap.keys route.Annotations)
    (hk3 : "uptimerobot.monitor.stakater.com/status-pages" ∉ gomap.keys route.Annotations)
    (hk4 : "uptimerobot.monitor.stakater.com/interval" ∉ gomap.keys route.Annotations)
    (h : GenerateIngressTemplate lib route lValues = some { bytes := some out, err := none }) :
    ∃ m, IsManifestOf lib route lValues out m ∧
      (gomap.get? m.ObjectMeta.Annotations "monitor.stakater.com/enabled" = some "true" ↔
        (lValues.EnvironmentType = "production" ∧ lValues.Monitoring.Enabled = true ∧
          route.Autogenerated = false)) ∧
      ((lValues.EnvironmentType = "production" ∧ lValues.Monitoring.Enabled = true ∧
          route.Autogenerated = false) →
        gomap.get? m.ObjectMeta.Annotations "uptimerobot.monitor.stakater.com/interval"
          = some "60" ∧
        gomap.get? m.ObjectMeta.Annotations "uptimerobot.monitor.stakater.com/alert-contacts"
          = some (if lValues.Monitoring.AlertContact = "" then "unconfigured"
                  else lValues.Monitoring.AlertContact)) ∧
      (¬ (lValues.EnvironmentType = "production" ∧ lValues.Monitoring.Enabled = true ∧
          route.Autogenerated = false) →
        gomap.get? m.ObjectMeta.Annotations "uptimerobot.monitor.stakater.com/interval"
          = none ∧
        gomap.get? m.ObjectMeta.Annotations "uptimerobot.monitor.stakater.com/alert-contacts"
          = none ∧
        gomap.get? m.ObjectMeta.Annotations "uptimerobot.monitor.stakater.com/status-pages"
          = none) := by
  obtain ⟨t, a, i, _, _, _, _, _, _, hm⟩ := rendered_manifest lib route lValues out h
  obtain ⟨m1, m2, m3, m4⟩ := get?_monitoringAnnotations_nil route lValues
  have e1 := get?_objectMeta_annotations_of_not_mem (lib.ToLower route.Domain) t a i route
    lValues _ hk1
  have e2 := get?_objectMeta_annotations_of_not_mem (lib.ToLower route.Domain) t a i route
    lValues _ hk2
  have e3 := get?_objectMeta_annotations_of_not_mem (lib.ToLower route.Domain) t a i route
    lValues _ hk3
  have e4 := get?_objectMeta_annotations_of_not_mem (lib.ToLower route.Domain) t a i route
    lValues _ hk4
  rw [get?_additionalAnnotations_monitoring _ _ _ _ (Or.inl rfl), m1,
    get?_default_annotations_of_ne _ _ _ _ (by decide) (by decide) (by decide)] at e1
  rw [get?_additionalAnnotations_monitoring _ _ _ _ (Or.inr (Or.inl rfl)), m3,
    get?_default_annotations_of_ne _ _ _ _ (by decide) (by decide) (by decide)] at e2
  rw [get?_additionalAnnotations_monitoring _ _ _ _ (Or.inr (Or.inr (Or.inl rfl))), m4,
    get?_default_annotations_of_ne _ _ _ _ (by decide) (by decide) (by decide)] at e3
  rw [get?_additionalAnnotations_monitoring _ _ _ _ (Or.inr (Or.inr (Or.inr rfl))), m2,
    get?_default_annotations_of_ne _ _ _ _ (by decide) (by decide) (by decide)] at e4
  refine ⟨_, hm, ?_, ?_, ?_⟩
  · rw [e1]
    by_cases hp : lValues.EnvironmentType = "production" <;>
      by_cases hen : lValues.Monitoring.Enabled = true <;>
      by_cases hau : route.Autogenerated = true <;>
      simp [hp, hen, hau]
  · rintro ⟨hp, hen, hau⟩
    rw [e4, e2]
    by_cases hc : lValues.Monitoring.AlertContact = "" <;> simp [hp, hen, hau, hc]
  · intro hn
    rw [e4, e2, e3]
    by_cases hp : lValues.EnvironmentType = "production" <;>
      by_cases hen : lValues.Monitoring.Enabled = true <;>
      by_cases hau : route.Autogenerated = true <;>
      simp_all

end conditionals

end routes

/-! ## The resolution of the service type -/

namespace generator

section resolver

variable {Route : Type}
  (remaining : String → List (String × String) → String → ServiceValues × Option String)
  (lYAML : lagoon.YAML Route) (environment overrides composeService : String)
  (labels : List (String × String))

/-- C23: for a service with the label `lagoon.type`, the resolved type is
the entry of the override list for the service when there is one, whatever the
label and the platform YAML say; without such an entry it is the `Types` entry
of the platform YAML for the service when there is one; without either it is
the label; and the resolved type, unless it is `none`, is the type from which
the record is computed. -/
theorem resolveServiceType_precedence (base : String)
    (hl : gomap.get? labels "lagoon.type" = some base) :
    (∀ t, serviceTypeOverride overrides composeService = some t →
      resolveServiceType lYAML environment overrides composeService labels = some t) ∧
    (serviceTypeOverride overrides composeService = none →
      ∀ t, yamlTypeOverride lYAML environment composeService = some t →
        resolveServiceType lYAML environment overrides composeService labels = some t) ∧
    (serviceTypeOverride overrides composeService = none →
      yamlTypeOverride lYAML environment composeService = none →
      resolveServiceType lYAML environment overrides composeService labels = some base) ∧
    (∀ t, resolveServiceType lYAML environment overrides composeService labels = some t →
      t ≠ "none" →
      composeToServiceValues remaining lYAML environment overrides composeService labels =
        remaining composeService labels t) := by
  refine ⟨?_, ?_, ?_, ?_⟩
  · intro t ht
    simp [resolveServiceType, hl, ht]
  · intro ho t ht
    simp [resolveServiceType, hl, ho, ht]
  · intro ho hy
    simp [resolveServiceType, hl, ho, hy]
  · intro t ht hn
    simp [composeToServiceValues, ht, hn]

/-- C24: for every service whose resolved type is `none`,
`composeToServiceValues` returns the zero record and no error, whatever the
steps after the short-circuit would compute and whatever the other labels
are. -/
theorem composeToServiceValues_none
    (h : resolveServiceType lYAML environment overrides composeService labels = some "none") :
    composeToServiceValues remaining lYAML environment overrides composeService labels =
      (zeroServiceValues, none) := by
  simp [composeToServiceValues, h]

end resolver

/-- Witness of C23: the override list `nginx:nginx-php-persistent` with
the label `lagoon.type=nginx-php`, as in the fourth test. -/
theorem resolveServiceType_precedence_witness :
    resolveServiceType (yamlWithTypes []) "main"
      "nginx:nginx-php-persistent,mariadb:mariadb-dbaas" "nginx"
      [("lagoon.type", "nginx-php")] = some "nginx-php-persistent" :=
  (resolveServiceType_precedence nameAndType (yamlWithTypes []) "main"
    "nginx:nginx-php-persistent,mariadb:mariadb-dbaas" "nginx" [("lagoon.type", "nginx-php")]
    "nginx-php" (by decide)).1 "nginx-php-persistent" (by decide)

/-- Witness of C24: the label `lagoon.type=none` in a pull-request
environment, as in the ninth test. -/
theorem composeToServiceValues_none_witness :
    composeToServiceValues nameAndType (yamlWithTypes []) "pr-123" "" "nginx"
      [("lagoon.type", "none")] = (zeroServiceValues, none) :=
  composeToServiceValues_none nameAndType (yamlWithTypes []) "pr-123" "" "nginx"
    [("lagoon.type", "none")] (by decide)

end generator

/-! ## The validations and the truncation -/

namespace validation

theorem splitOnP_head (p : Char → Bool) (l : List Char) :
    ∃ rest, l.splitOnP p = l.takeWhile (fun c => !p c) :: rest := by
  induction l with
  | nil => exact ⟨[], rfl⟩
  | cons x xs ih =>
    obtain ⟨rest, hr⟩ := ih
    rw [List.splitOnP_cons]
    by_cases hx : p x = true
    · exact ⟨xs.splitOnP p, by simp [hx, List.takeWhile_cons]⟩
    · refine ⟨rest, ?_⟩
      simp [hx, hr, List.takeWhile_cons, List.modifyHead]

/-- The first element of the split at dots is the part before the first
dot. -/
theorem splitOn_dot_head (l : List Char) :
    ∃ rest, l.splitOn '.' = l.takeWhile (fun c => c ≠ '.') :: rest := by
  obtain ⟨rest, hr⟩ := splitOnP_head (fun c => c == '.') l
  refine ⟨rest, ?_⟩
  have hf : (fun c : Char => !(c == '.')) = (fun c => decide (c ≠ '.')) := by
    funext c
    by_cases h : c = '.' <;> simp [h]
  rw [List.splitOn, hr, hf]

theorem isAlnum_of_isLowerAlnum (c : Char) (h : isLowerAlnum c = true) : isAlnum c = true := by
  simp [isAlnum, h]

/-- A value that matches the DNS-1123 label expression matches the
expression of a qualified name. -/
theorem matchesQualifiedName_of_label (value : List Char)
    (h : matchesDNS1123Label value = true) : matchesQualifiedName value = true := by
  unfold matchesDNS1123Label at h
  unfold matchesQualifiedName
  cases hh : value.head? with
  | none => simp [hh] at h
  | some first =>
    cases hl : value.getLast? with
    | none => simp [hh, hl] at h
    | some last =>
      simp only [hh, hl, Bool.and_eq_true, List.all_eq_true, Bool.or_eq_true,
        decide_eq_true_eq] at h ⊢
      refine ⟨⟨isAlnum_of_isLowerAlnum _ h.1.1, isAlnum_of_isLowerAlnum _ h.1.2⟩, ?_⟩
      intro c hc
      rcases h.2 c hc with h1 | h1
      · exact Or.inl (Or.inl (Or.inl h1))
      · exact Or.inr (isAlnum_of_isLowerAlnum _ h1)

/-- The first field of a valid DNS-1123 subdomain matches the label
expression. -/
theorem matchesDNS1123Label_first (value : String) (h : IsDNS1123Subdomain value = []) :
    matchesDNS1123Label (value.data.takeWhile (fun c => c ≠ '.')) = true := by
  unfold IsDNS1123Subdomain at h
  have hm : matchesDNS1123Subdomain value.data = true := by
    by_contra hn
    simp [hn] at h
  unfold matchesDNS1123Subdomain at hm
  obtain ⟨rest, hr⟩ := splitOn_dot_head value.data
  rw [hr] at hm
  simp only [List.all_cons, Bool.and_eq_true] at hm
  exact hm.1

/-- A value that matches the label expression and is not a valid label
value has more than 63 bytes. -/
theorem utf8ByteSize_of_invalid_label_value (value : String)
    (hm : matchesDNS1123Label value.data = true) (h : IsValidLabelValue value ≠ []) :
    63 < value.utf8ByteSize := by
  by_contra hn
  apply h
  unfold IsValidLabelValue
  simp [hn, matchesQualifiedName_of_label _ hm]

end validation

namespace routes

open lagoon generator networkv1

theorem slicePrefix_isSome (s : String) (n : Nat) (h : n ≤ len s) :
    ∃ p, slicePrefix s n = some p := by
  unfold slicePrefix
  exact ⟨_, if_pos h⟩

/-- The first field of a valid domain that is not a valid label value has
more than 63 bytes. -/
theorem len_firstField_of_invalid (rd : String)
    (hd : validation.IsDNS1123Subdomain rd = [])
    (hv : validation.IsValidLabelValue (firstField rd) ≠ []) : 63 < len (firstField rd) :=
  validation.utf8ByteSize_of_invalid_label_value (firstField rd)
    (validation.matchesDNS1123Label_first rd hd) hv

/-- The truncation does not panic when the cut and the first bytes of the
hash are in range. -/
theorem truncate_isSome (lib : Library) (rd : String)
    (hcut : lib.IsValidLabelValue (firstField rd) ≠ [] → 53 ≤ len (firstField rd))
    (hHash : 5 ≤ len (lib.GetMD5HashWithNewLine rd)) : ∃ t, truncate lib rd = some t := by
  obtain ⟨hash, hh⟩ := slicePrefix_isSome _ _ hHash
  unfold truncate
  simp only
  split
  · by_cases hv : lib.IsValidLabelValue (firstField rd) = []
    · simp [hv, hh]
    · obtain ⟨p, hp⟩ := slicePrefix_isSome _ _ (hcut hv)
      simp [hv, hp, hh]
  · exact ⟨_, rfl⟩

section faults

variable (lib : Library) (route : RouteV2) (lValues : BuildValues)

/-- C27: with the DNS-1123 and label-value validations of
`k8s.io/apimachinery`, lower-casing idempotent on the domain and a hash of at
least 5 bytes, `GenerateIngressTemplate` does not panic on a route with
`TLSAcme` and `Insecure` set: it returns bytes and no error, or an error and no
bytes.  In particular the first field of a lowercased domain that passed the
DNS-1123 validation and is not a valid label value has at least 53 bytes, so
the cut to 53 bytes is in range; and the split at dots has a first element,
the first field. -/
theorem GenerateIngressTemplate_never_faults (a : Bool) (i : String)
    (hDNS : lib.IsDNS1123Subdomain = validation.IsDNS1123Subdomain)
    (hLV : lib.IsValidLabelValue = validation.IsValidLabelValue)
    (hTLS : route.TLSAcme = some a) (hIns : route.Insecure = some i)
    (hLower : lib.ToLower (lib.ToLower route.Domain) = lib.ToLower route.Domain)
    (hHash : 5 ≤ len (lib.GetMD5HashWithNewLine (lib.ToLower route.Domain))) :
    (∃ r, GenerateIngressTemplate lib route lValues = some r ∧
      ((∃ out, r = { bytes := some out, err := none }) ∨
       (∃ e, r = { bytes := none, err := some e }))) ∧
    (validation.IsDNS1123Subdomain (lib.ToLower route.Domain) = [] →
      validation.IsValidLabelValue (firstField (lib.ToLower route.Domain)) ≠ [] →
      53 ≤ len (firstField (lib.ToLower route.Domain)) ∧
      ∃ p, slicePrefix (firstField (lib.ToLower route.Domain)) 53 = some p) ∧
    (∃ rest, (lib.ToLower route.Domain).data.splitOn '.' =
      (firstField (lib.ToLower route.Domain)).data :: rest) := by
  have hcut : validation.IsDNS1123Subdomain (lib.ToLower route.Domain) = [] →
      validation.IsValidLabelValue (firstField (lib.ToLower route.Domain)) ≠ [] →
      53 ≤ len (firstField (lib.ToLower route.Domain)) := by
    intro hd hv
    have := len_firstField_of_invalid _ hd hv
    omega
  refine ⟨?_, fun hd hv => ⟨hcut hd hv, slicePrefix_isSome _ _ (hcut hd hv)⟩,
    validation.splitOn_dot_head _⟩
  by_cases hd : lib.IsDNS1123Subdomain (lib.ToLower route.Domain) = []
  · have hd2 : validation.IsDNS1123Subdomain (lib.ToLower route.Domain) = [] := by
      rw [← hDNS]; exact hd
    obtain ⟨t, ht⟩ := truncate_isSome lib (lib.ToLower route.Domain)
      (by rw [hLV]; exact hcut hd2) hHash
    simp only [GenerateIngressTemplate, hLower, hd, ht, hTLS, hIns, ne_eq, not_true_eq_false,
      if_false]
    split
    · exact ⟨_, rfl, Or.inr ⟨_, rfl⟩⟩
    · split
      · exact ⟨_, rfl, Or.inr ⟨_, rfl⟩⟩
      · split
        · exact ⟨_, rfl, Or.inr ⟨_, rfl⟩⟩
        · exact ⟨_, rfl, Or.inl ⟨_, rfl⟩⟩
  · simp only [GenerateIngressTemplate, hLower, ne_eq, hd, not_false_eq_true, if_true]
    exact ⟨_, rfl, Or.inr ⟨_, rfl⟩⟩

end faults

/-- Witness of C27: the route `Example.COM` with the fixture library. -/
theorem GenerateIngressTemplate_never_faults_witness :
    ∃ r, GenerateIngressTemplate fixtureLibrary mixedCaseRoute (fixtureValues []) = some r ∧
      ((∃ out, r = { bytes := some out, err := none }) ∨
       (∃ e, r = { bytes := none, err := some e })) :=
  (GenerateIngressTemplate_never_faults fixtureLibrary mixedCaseRoute (fixtureValues []) true
    "Redirect" rfl rfl rfl rfl (by decide) (by decide)).1

set_option maxRecDepth 20000 in
theorem render_sixty :
    GenerateIngressTemplate fixtureLibrary (fixtureRoute sixtyDomain [] [] false)
      (fixtureValues []) =
      some { bytes := none
             err := some ("the labels for " ++ sixtyDomain ++ " are not valid: " ++
               "[must be no more than 63 characters must be no more than 63 characters]") } := by
  decide

/-- C26, the run that diverges: a domain of 72 bytes that is a valid
DNS-1123 subdomain and whose first field has 60 bytes.  The first field is a
valid label value and is not cut; the identifier has 66 bytes and is not a
valid label value; the validation of the labels rejects the route. -/
theorem truncated_identifier_too_long :
    validation.IsDNS1123Subdomain (fixtureLibrary.ToLower sixtyDomain) = [] ∧
    53 ≤ len (fixtureLibrary.ToLower sixtyDomain) ∧
    truncate fixtureLibrary (fixtureLibrary.ToLower sixtyDomain) =
      some "first-label-of-sixty-characters-that-is-a-valid-label-value0-01234" ∧
    len "first-label-of-sixty-characters-that-is-a-valid-label-value0-01234" = 66 ∧
    validation.IsValidLabelValue
      "first-label-of-sixty-characters-that-is-a-valid-label-value0-01234" ≠ [] ∧
    GenerateIngressTemplate fixtureLibrary (fixtureRoute sixtyDomain [] [] false)
      (fixtureValues []) =
      some { bytes := none
             err := some ("the labels for " ++ sixtyDomain ++ " are not valid: " ++
               "[must be no more than 63 characters must be no more than 63 characters]") } :=
  ⟨by decide, by decide, by decide, by decide, by decide, render_sixty⟩

end routes

namespace routes

open lagoon generator networkv1

theorem render_monitored :
    GenerateIngressTemplate fixtureLibrary mixedCaseRoute monitoredValues =
      some { bytes := some "---\nmetadata:\n  name: example.com\n", err := none } := by
  decide

/-- Witness of C21: the route `Example.COM`, whose insecure policy is
`Redirect`. -/
theorem manifest_ssl_redirect_witness :
    ∃ m, IsManifestOf fixtureLibrary mixedCaseRoute (fixtureValues [])
        "---\nmetadata:\n  name: example.com\n" m ∧
      gomap.get? m.ObjectMeta.Annotations "nginx.ingress.kubernetes.io/ssl-redirect"
        = some "true" ∧
      gomap.get? m.ObjectMeta.Annotations "ingress.kubernetes.io/ssl-redirect" = some "true" :=
  (manifest_ssl_redirect fixtureLibrary mixedCaseRoute (fixtureValues []) _ (by decide)
    (by decide) render_mixed_case).elim
    (fun m hm => hm.elim fun i hi =>
      have hr : i = "Redirect" := Option.some.inj (hi.2.1.symm.trans rfl)
      ⟨m, hi.1, hi.2.2.2.1 (Or.inl hr)⟩)

/-- Witness of C22: the route `Example.COM`, not autogenerated, in a
production environment with monitoring enabled and no alert contact. -/
theorem manifest_monitoring_witness :
    ∃ m, IsManifestOf fixtureLibrary mixedCaseRoute monitoredValues
        "---\nmetadata:\n  name: example.com\n" m ∧
      gomap.get? m.ObjectMeta.Annotations "monitor.stakater.com/enabled" = some "true" ∧
      gomap.get? m.ObjectMeta.Annotations "uptimerobot.monitor.stakater.com/interval"
        = some "60" ∧
      gomap.get? m.ObjectMeta.Annotations "uptimerobot.monitor.stakater.com/alert-contacts"
        = some "unconfigured" :=
  (manifest_monitoring fixtureLibrary mixedCaseRoute monitoredValues _ (by decide) (by decide)
    (by decide) (by decide) render_monitored).elim
    (fun m hm =>
      ⟨m, hm.1, hm.2.1.mpr ⟨rfl, rfl, rfl⟩, (hm.2.2.1 ⟨rfl, rfl, rfl⟩).1,
        (hm.2.2.1 ⟨rfl, rfl, rfl⟩).2⟩)

end routes

/-! ## The serializer and the parser of the concrete runs -/

namespace routes

open lagoon generator networkv1

theorem fixtureMarshal_forgets_order :
    labelsInOrder [("a", "1"), ("b", "2")] ≠ labelsInOrder [("b", "2"), ("a", "1")] ∧
    fixtureMarshal (labelsInOrder [("a", "1"), ("b", "2")])
      = fixtureMarshal (labelsInOrder [("b", "2"), ("a", "1")]) := by
  decide

end routes

/-! ## The round trip of the rendering -/

namespace routes

open lagoon generator networkv1

section roundtrip

variable (lib : Library) (route : RouteV2) (lValues : BuildValues)

end roundtrip

end routes
